import Mathlib

/-!
Verification development for the lazy asynchronous S3 file-tree engine of the
finch repository.  The definitions below are a shallow embedding of
src/finch/models/file_tree_model.py and of the listing functions of
src/finch/services/s3_service.py.

Embedding conventions:
* Python str values that the code computes with (names, keys, path segments)
  are embedded as List Char; opaque human-readable messages are Lean String.
* Python object identity (the uuid node_id of S3Node) is embedded as a Nat
  key into an association-list arena: the arena plays the role of the object
  heap together with the _node_map of the model.
* Qt QModelIndex values are embedded as Option Nat: none is the invalid
  index (the root index), some i is a valid index whose internalPointer is
  the node stored under key i.
* Qt signals and the begin/end structural notifications, together with the
  points at which a children list is written and at which loader threads are
  started and cancelled, are recorded in an explicit trace of steps returned
  by every mutating operation.
* Background delivery (the queued finished and error signals of the loader
  thread) is embedded as explicit deliver functions gated by the identity of
  the currently connected worker, mirroring that _cleanup_worker stops and
  disconnects the previous worker before a new one is started.
-/

namespace Finch

/-- ObjectType from src/finch/services/s3_service.py. -/
inductive ObjectType where
  | bucket
  | folder
  | file
deriving DecidableEq, Repr

/-- S3Object dataclass from src/finch/services/s3_service.py
(name, type, size, last_modified, bucket, key).  The last_modified
timestamp is embedded as an abstract Option Nat. -/
structure S3Object where
  name : List Char
  type : ObjectType
  size : Nat := 0
  last_modified : Option Nat := none
  bucket : Option (List Char) := none
  key : Option (List Char) := none
deriving DecidableEq, Repr

/-- S3Node dataclass from src/finch/models/file_tree_model.py: an S3Object
plus tree linkage.  The children list holds arena keys (object references in
Python); parent is a back-reference; node_id is the arena key under which
the node is stored, so it is not repeated as a field. -/
structure S3Node extends S3Object where
  parent : Option Nat := none
  children : List Nat := []
  is_loaded : Bool := false
deriving DecidableEq, Repr

/-- S3Node.can_fetch_more from src/finch/models/file_tree_model.py:
not is_loaded and type in (BUCKET, FOLDER). -/
def S3Node.can_fetch_more (n : S3Node) : Bool :=
  !n.is_loaded && (n.type == ObjectType.bucket || n.type == ObjectType.folder)

/-! ### Arena (object heap / _node_map) helpers -/

/-- Look up a node by its arena key (first binding wins). -/
def lookupNode : List (Nat × S3Node) → Nat → Option S3Node
  | [], _ => none
  | p :: t, i => if p.1 = i then some p.2 else lookupNode t i

/-- Store a node under a key, replacing any previous binding. -/
def storeNode (heap : List (Nat × S3Node)) (i : Nat) (n : S3Node) :
    List (Nat × S3Node) :=
  (i, n) :: heap.filter (fun p => p.1 != i)

/-- Update the node stored under a key, if present (mutation of an existing
Python object through a reference). -/
def setNode (heap : List (Nat × S3Node)) (i : Nat) (n : S3Node) :
    List (Nat × S3Node) :=
  heap.map (fun p => if p.1 = i then (i, n) else p)

/-- Look up an entry of the _has_children_cache dictionary. -/
def lookupCache : List (Nat × Bool) → Nat → Option Bool
  | [], _ => none
  | p :: t, i => if p.1 = i then some p.2 else lookupCache t i

/-- Write an entry of the _has_children_cache dictionary. -/
def storeCache (cache : List (Nat × Bool)) (i : Nat) (v : Bool) :
    List (Nat × Bool) :=
  (i, v) :: cache.filter (fun p => p.1 != i)

/-! ### Signals and trace steps -/

/-- Qt signals emitted by S3FileTreeModel, including the structural
begin/end notifications of QAbstractItemModel. -/
inductive Sig where
  | loadingStarted
  | loadingFinished
  | errorOccurred (msg : String)
  | beginInsertRows (parentIdx : Option Nat) (first last : Int)
  | endInsertRows
  | beginRemoveRows (parentIdx : Option Nat) (first last : Int)
  | endRemoveRows
  | beginResetModel
  | endResetModel
  | layoutAboutToBeChanged
  | layoutChanged
  | dataChanged
deriving DecidableEq, Repr

/-- One observable step of a model operation: a signal emission, a write to
the children list of the node with the given key, the start of a loader
thread with a given generation, or the stop/disconnect of one. -/
inductive Step where
  | sig (s : Sig)
  | mutateChildren (node : Nat)
  | loaderStart (gen : Nat)
  | loaderCancel (gen : Nat)
deriving DecidableEq, Repr

/-- Kinds of begin/end structural brackets. -/
inductive BracketKind where
  | insert
  | remove
  | reset
  | layout
deriving DecidableEq, Repr

/-- Classify a signal as a begin notification. -/
def sigBegin : Sig → Option BracketKind
  | Sig.beginInsertRows _ _ _ => some BracketKind.insert
  | Sig.beginRemoveRows _ _ _ => some BracketKind.remove
  | Sig.beginResetModel => some BracketKind.reset
  | Sig.layoutAboutToBeChanged => some BracketKind.layout
  | _ => none

/-- Classify a signal as an end notification. -/
def sigEnd : Sig → Option BracketKind
  | Sig.endInsertRows => some BracketKind.insert
  | Sig.endRemoveRows => some BracketKind.remove
  | Sig.endResetModel => some BracketKind.reset
  | Sig.layoutChanged => some BracketKind.layout
  | _ => none

/-- Check that, along a trace, every write to a children list happens inside
an open begin/end bracket (a begin strictly before it, the matching end
strictly after it), ends match the kind of the innermost open begin, and
every begin is eventually closed.  The first argument is the stack of open
brackets. -/
def bracketCheck : List BracketKind → List Step → Bool
  | stk, [] => stk.isEmpty
  | stk, Step.sig s :: rest =>
    match sigBegin s with
    | some k => bracketCheck (k :: stk) rest
    | none =>
      match sigEnd s with
      | some k =>
        match stk with
        | [] => false
        | k₀ :: stk₀ => k₀ == k && bracketCheck stk₀ rest
      | none => bracketCheck stk rest
  | stk, Step.mutateChildren _ :: rest => !stk.isEmpty && bracketCheck stk rest
  | stk, Step.loaderStart _ :: rest => bracketCheck stk rest
  | stk, Step.loaderCancel _ :: rest => bracketCheck stk rest

/-- A trace mutates children lists only inside properly matched
begin/end brackets. -/
def mutationsBracketed (tr : List Step) : Bool :=
  bracketCheck [] tr

/-! ### Model state -/

/-- The identity of the S3ObjectLoaderThread currently held in
_current_worker and connected to _on_nodes_loaded / _on_load_error:
its generation number (each created thread gets a fresh one), the node it
loads children for, and the QModelIndex captured by the connected lambda. -/
structure LoaderWorker where
  gen : Nat
  parentId : Nat
  parentIdx : Option Nat
deriving DecidableEq, Repr

/-- State of S3FileTreeModel from src/finch/models/file_tree_model.py.
nodes is the object heap (every S3Node object alive, keyed by node_id);
node_map is the set of keys registered in _node_map; has_service tells
whether _s3_service is set; check_folder_contents is the
CHECK_FOLDER_CONTENTS configuration flag the model imports. -/
structure S3FileTreeModel where
  nodes : List (Nat × S3Node)
  node_map : List Nat := []
  rootId : Nat := 0
  has_service : Bool := true
  current_worker : Option LoaderWorker := none
  next_worker : Nat := 0
  has_children_cache : List (Nat × Bool) := []
  checking_nodes : List Nat := []
  active_checkers : List Nat := []
  check_folder_contents : Bool := false
deriving DecidableEq, Repr

namespace S3FileTreeModel

/-- get_node: the invalid index resolves to the root node, a valid index to
its internalPointer. -/
def get_node (m : S3FileTreeModel) (idx : Option Nat) : Option S3Node :=
  match idx with
  | none => lookupNode m.nodes m.rootId
  | some i => lookupNode m.nodes i

/-- Arena key addressed by a QModelIndex (the root key for the invalid
index). -/
def keyOf (m : S3FileTreeModel) (idx : Option Nat) : Nat :=
  match idx with
  | none => m.rootId
  | some i => i

/-- Children list currently stored for a key (empty if the key is absent,
which cannot happen for a live object). -/
def childrenOf (m : S3FileTreeModel) (i : Nat) : List Nat :=
  match lookupNode m.nodes i with
  | some n => n.children
  | none => []

/-- _cleanup_worker: stop the current worker thread (so that it will not
emit), disconnect its finished and error signals, and drop the reference. -/
def cleanup_worker (m : S3FileTreeModel) : S3FileTreeModel × List Step :=
  match m.current_worker with
  | some w => ({ m with current_worker := none }, [Step.loaderCancel w.gen])
  | none => (m, [])

/-- _on_nodes_loaded(nodes, parent_node, parent_index): register the batch
in _node_map, then inside a beginInsertRows/endInsertRows bracket replace
the children of parent_node by the batch and set is_loaded, then emit
loadingFinished. -/
def on_nodes_loaded (m : S3FileTreeModel) (parentId : Nat)
    (parentIdx : Option Nat) (batch : List (Nat × S3Node)) :
    S3FileTreeModel × List Step :=
  let heap₁ := batch.foldl (fun h p => storeNode h p.1 p.2) m.nodes
  let map₁ := batch.map (fun p => p.1) ++ m.node_map
  match lookupNode heap₁ parentId with
  | none =>
    -- unreachable for a live parent object; no reference means no mutation
    ({ m with nodes := heap₁, node_map := map₁ }, [])
  | some parent_node =>
    let heap₂ := setNode heap₁ parentId
      { parent_node with children := batch.map (fun p => p.1), is_loaded := true }
    ({ m with nodes := heap₂, node_map := map₁ },
     [Step.sig (Sig.beginInsertRows parentIdx 0 ((batch.length : Int) - 1)),
      Step.mutateChildren parentId,
      Step.sig Sig.endInsertRows,
      Step.sig Sig.loadingFinished])

/-- _on_load_error: surface the message, emit loadingFinished, clean up the
worker. -/
def on_load_error (m : S3FileTreeModel) (msg : String) :
    S3FileTreeModel × List Step :=
  let (m₁, t₁) := cleanup_worker m
  (m₁, [Step.sig (Sig.errorOccurred msg), Step.sig Sig.loadingFinished] ++ t₁)

/-- Delivery of the queued finished signal of the loader thread with
generation gen: it reaches _on_nodes_loaded only while that thread is still
the connected current worker; a superseded worker was stopped and
disconnected by _cleanup_worker, so its result is discarded. -/
def deliver_finished (m : S3FileTreeModel) (gen : Nat)
    (batch : List (Nat × S3Node)) : S3FileTreeModel × List Step :=
  match m.current_worker with
  | some w =>
    if w.gen == gen then on_nodes_loaded m w.parentId w.parentIdx batch
    else (m, [])
  | none => (m, [])

/-- Delivery of the queued error signal of the loader thread with
generation gen, gated exactly like deliver_finished. -/
def deliver_error (m : S3FileTreeModel) (gen : Nat) (msg : String) :
    S3FileTreeModel × List Step :=
  match m.current_worker with
  | some w => if w.gen == gen then on_load_error m msg else (m, [])
  | none => (m, [])

/-- _fetch_children(parent_node, parent_index): bail out with
errorOccurred and loadingFinished if no service is set, otherwise clean up
the previous worker and start a fresh S3ObjectLoaderThread for the parent. -/
def fetch_children (m : S3FileTreeModel) (i : Nat) (parentIdx : Option Nat) :
    S3FileTreeModel × List Step :=
  if !m.has_service then
    (m, [Step.sig (Sig.errorOccurred "S3 service not provided"),
         Step.sig Sig.loadingFinished])
  else
    let (m₁, t₁) := cleanup_worker m
    let g := m₁.next_worker
    ({ m₁ with current_worker := some ⟨g, i, parentIdx⟩, next_worker := g + 1 },
     t₁ ++ [Step.loaderStart g])

/-- canFetchMore(parent): false for the invalid index; false while a
children check is in flight for the node; false if the cache holds a
negative verdict; otherwise S3Node.can_fetch_more. -/
def canFetchMore (m : S3FileTreeModel) (parentIdx : Option Nat) : Bool :=
  match parentIdx with
  | none => false
  | some i =>
    match lookupNode m.nodes i with
    | none => false   -- stale internalPointer, unreachable for a live index
    | some node =>
      if m.checking_nodes.contains i then false
      else if lookupCache m.has_children_cache i == some false then false
      else node.can_fetch_more

/-- fetchMore(parent): no-op for the invalid index, while a children check
is in flight, on a cached negative verdict, or when can_fetch_more is
false; otherwise emit loadingStarted and start _fetch_children. -/
def fetchMore (m : S3FileTreeModel) (parentIdx : Option Nat) :
    S3FileTreeModel × List Step :=
  match parentIdx with
  | none => (m, [])
  | some i =>
    match lookupNode m.nodes i with
    | none => (m, [])  -- stale internalPointer, unreachable for a live index
    | some node =>
      if m.checking_nodes.contains i then (m, [])
      else if lookupCache m.has_children_cache i == some false then (m, [])
      else if !node.can_fetch_more then (m, [])
      else
        let (m₁, t₁) := fetch_children m i (some i)
        (m₁, Step.sig Sig.loadingStarted :: t₁)

/-- load_buckets: with no service, error out; otherwise emit
loadingStarted, beginResetModel, clear the children of root in place,
clean up any previous worker and start a bucket-listing worker whose
connected lambda targets root with the invalid parent index.  The matching
endResetModel is emitted only by the synchronous exception handler, which
this embedding of the non-throwing body never reaches. -/
def load_buckets (m : S3FileTreeModel) : S3FileTreeModel × List Step :=
  if !m.has_service then
    (m, [Step.sig (Sig.errorOccurred "S3 service not provided"),
         Step.sig Sig.loadingFinished])
  else
    let heap₁ :=
      match lookupNode m.nodes m.rootId with
      | some root => setNode m.nodes m.rootId { root with children := [] }
      | none => m.nodes
    let (m₁, t₁) := cleanup_worker { m with nodes := heap₁ }
    let g := m₁.next_worker
    ({ m₁ with current_worker := some ⟨g, m.rootId, none⟩, next_worker := g + 1 },
     [Step.sig Sig.loadingStarted, Step.sig Sig.beginResetModel,
      Step.mutateChildren m.rootId] ++ t₁ ++ [Step.loaderStart g])

/-- clearNode(index): for a valid index, empty the children of the node in
place, reset is_loaded, and discard the node from _checking_nodes.  The
_has_children_cache entry of the node is left untouched. -/
def clearNode (m : S3FileTreeModel) (idx : Option Nat) :
    S3FileTreeModel × List Step :=
  match idx with
  | none => (m, [])
  | some i =>
    match lookupNode m.nodes i with
    | none => (m, [])  -- stale internalPointer, unreachable for a live index
    | some node =>
      let heap₁ := setNode m.nodes i { node with children := [], is_loaded := false }
      ({ m with nodes := heap₁,
                checking_nodes := m.checking_nodes.filter (fun j => j ≠ i) },
       [Step.mutateChildren i])

/-- removeRow(row, parent): bracket with beginRemoveRows/endRemoveRows the
deletion of the child at the given row of the parent node (the deletion
itself is guarded by the row being in range). -/
def removeRow (m : S3FileTreeModel) (parentIdx : Option Nat) (row : Nat) :
    (S3FileTreeModel × List Step) × Bool :=
  let pid := m.keyOf parentIdx
  match lookupNode m.nodes pid with
  | none =>
    ((m, [Step.sig (Sig.beginRemoveRows parentIdx row row),
          Step.sig Sig.endRemoveRows]), true)
  | some parent_node =>
    if row < parent_node.children.length then
      let heap₁ := setNode m.nodes pid
        { parent_node with children := parent_node.children.eraseIdx row }
      (({ m with nodes := heap₁ },
        [Step.sig (Sig.beginRemoveRows parentIdx row row),
         Step.mutateChildren pid,
         Step.sig Sig.endRemoveRows]), true)
    else
      ((m, [Step.sig (Sig.beginRemoveRows parentIdx row row),
            Step.sig Sig.endRemoveRows]), true)

/-- removeRows(row, count, parent): bracket with
beginRemoveRows/endRemoveRows the deletion of the slice
children[row : row + count]. -/
def removeRows (m : S3FileTreeModel) (parentIdx : Option Nat)
    (row count : Nat) : (S3FileTreeModel × List Step) × Bool :=
  let pid := m.keyOf parentIdx
  match lookupNode m.nodes pid with
  | none =>
    ((m, [Step.sig (Sig.beginRemoveRows parentIdx row ((row : Int) + count - 1)),
          Step.sig Sig.endRemoveRows]), true)
  | some parent_node =>
    let heap₁ := setNode m.nodes pid
      { parent_node with
          children := parent_node.children.take row ++
            parent_node.children.drop (row + count) }
    (({ m with nodes := heap₁ },
      [Step.sig (Sig.beginRemoveRows parentIdx row ((row : Int) + count - 1)),
       Step.mutateChildren pid,
       Step.sig Sig.endRemoveRows]), true)

/-- The S3Node objects currently referenced by a children list. -/
def resolveChildren (m : S3FileTreeModel) (children : List Nat) : List S3Node :=
  children.filterMap (lookupNode m.nodes)

/-- appendRow(parent_index, new_node): resolve the parent (root for the
invalid index), set the parent back-reference of the new node (the new
object is stored in the heap under the fresh key newId), return False
without touching the children of the parent if a (name, type) duplicate
exists among them, otherwise append the new node inside an insert bracket
and return True. -/
def appendRow (m : S3FileTreeModel) (parentIdx : Option Nat) (newId : Nat)
    (new_node : S3Node) : (S3FileTreeModel × List Step) × Bool :=
  let pid := m.keyOf parentIdx
  match lookupNode m.nodes pid with
  | none => ((m, []), false)
  | some parent_node =>
    let m₀ := { m with
      nodes := storeNode m.nodes newId { new_node with parent := some pid } }
    if (resolveChildren m₀ parent_node.children).any
        (fun ex => ex.name == new_node.name && ex.type == new_node.type) then
      ((m₀, []), false)
    else
      let row := parent_node.children.length
      let heap₁ := setNode m₀.nodes pid
        { parent_node with children := parent_node.children ++ [newId] }
      (({ m₀ with nodes := heap₁ },
        [Step.sig (Sig.beginInsertRows parentIdx row row),
         Step.mutateChildren pid,
         Step.sig Sig.endInsertRows]), true)

/-- hasChildren(parent): True for the invalid index; True if the node
already has children; if content checking is disabled, containers count as
having children; a cached verdict is returned as is; for an unloaded
container not yet being checked, record it in _checking_nodes, start an
S3ChildrenCheckerWorker on the pool, and answer True while the check is
pending; otherwise False. -/
def hasChildren (m : S3FileTreeModel) (parentIdx : Option Nat) :
    Bool × S3FileTreeModel :=
  match parentIdx with
  | none => (true, m)
  | some i =>
    match lookupNode m.nodes i with
    | none => (false, m)  -- stale internalPointer, unreachable for a live index
    | some node =>
      if node.children.length > 0 then (true, m)
      else if !m.check_folder_contents then
        (node.type == ObjectType.bucket || node.type == ObjectType.folder, m)
      else
        match lookupCache m.has_children_cache i with
        | some v => (v, m)
        | none =>
          if !node.is_loaded &&
              (node.type == ObjectType.bucket || node.type == ObjectType.folder) then
            if !(m.checking_nodes.contains i) then
              (true, { m with checking_nodes := i :: m.checking_nodes,
                              active_checkers := i :: m.active_checkers })
            else (true, m)
          else (false, m)

/-- _on_children_checked(node_id, has_children): record the verdict in the
cache, drop the in-flight markers, and if the node is registered in
_node_map mark it loaded on a negative verdict and emit dataChanged and
layoutChanged; when the verdict is positive and the view reports the node
expanded, fetch its children.  The collapse call on the attached view is a
pure view effect and is not part of the model state. -/
def on_children_checked (m : S3FileTreeModel) (i : Nat) (hc : Bool)
    (expanded : Bool) : S3FileTreeModel × List Step :=
  let m₁ := { m with
    has_children_cache := storeCache m.has_children_cache i hc,
    checking_nodes := m.checking_nodes.filter (fun j => j ≠ i),
    active_checkers := m.active_checkers.filter (fun j => j ≠ i) }
  if m₁.node_map.contains i then
    match lookupNode m₁.nodes i with
    | none => (m₁, [])
    | some node =>
      let m₂ :=
        if !hc then
          { m₁ with nodes := setNode m₁.nodes i { node with is_loaded := true } }
        else m₁
      let tr := [Step.sig Sig.dataChanged, Step.sig Sig.layoutChanged]
      if hc && expanded then
        let (m₃, t₃) := fetch_children m₂ i (some i)
        (m₃, tr ++ t₃)
      else (m₂, tr)
  else (m₁, [])

end S3FileTreeModel

/-! ### Object store service (src/finch/services/s3_service.py) and the
existence checker (S3ChildrenCheckerWorker) -/

/-- Python rstrip of the slash character: drop every trailing slash. -/
def pyRstripSlash (s : List Char) : List Char :=
  (s.reverse.dropWhile (fun c => c == '/')).reverse

/-- Python split on the slash character: the resulting list of segments is
never empty. -/
def pySplitSlash : List Char → List (List Char)
  | [] => [[]]
  | c :: rest =>
    match pySplitSlash rest with
    | [] => [[]]
    | h :: t => if c == '/' then [] :: h :: t else (c :: h) :: t

/-- Python split on slash followed by taking the final element. -/
def pyLastSegment (s : List Char) : List Char :=
  (pySplitSlash s).getLastD []

/-- One page of a delimiter-based list_objects_v2 response: the
CommonPrefixes paths and the Contents entries (Key, Size, LastModified).
An absent dictionary key is modelled as the empty list. -/
structure ListingPage where
  commonPrefixes : List (List Char)
  contents : List (List Char × Nat × Option Nat)
deriving DecidableEq, Repr

/-- The folder object S3Service.list_objects yields for a common-prefix
path. -/
def folderObjectOf (bucket p : List Char) : S3Object :=
  { name := pyLastSegment (pyRstripSlash p), type := ObjectType.folder,
    bucket := some bucket, key := some (pyRstripSlash p) }

/-- The file object S3Service.list_objects yields for a Contents entry. -/
def fileObjectOf (bucket : List Char) (kv : List Char × Nat × Option Nat) :
    S3Object :=
  { name := pyLastSegment kv.1, type := ObjectType.file,
    bucket := some bucket, key := some kv.1,
    size := kv.2.1, last_modified := kv.2.2 }

/-- The objects S3Service.list_objects yields for one page: folders for the
non-empty common-prefix paths, then files for the Contents keys that are
non-empty and do not end in a slash (folder markers are skipped). -/
def pageObjects (bucket : List Char) (pg : ListingPage) : List S3Object :=
  pg.commonPrefixes.filterMap (fun p =>
    if p.isEmpty then none else some (folderObjectOf bucket p))
  ++ pg.contents.filterMap (fun kv =>
    if kv.1.isEmpty then none
    else if kv.1.getLast? == some '/' then none
    else some (fileObjectOf bucket kv))

/-- S3Service.list_objects over the paginated response. -/
def list_objects (bucket : List Char) (pages : List ListingPage) :
    List S3Object :=
  (pages.map (pageObjects bucket)).flatten

/-- S3Service.list_buckets over a ListBuckets response of
(Name, CreationDate) entries. -/
def list_buckets (resp : List (List Char × Option Nat)) : List S3Object :=
  resp.map (fun b =>
    { name := b.1, type := ObjectType.bucket, size := 0, last_modified := b.2 })

/-- _create_node of S3ObjectLoaderThread and _create_node_from_s3object of
the model: copy the object fields and attach the parent reference; a fresh
node starts unloaded with no children. -/
def create_node (obj : S3Object) (parentId : Nat) : S3Node :=
  { toS3Object := obj, parent := some parentId, children := [], is_loaded := false }

/-- The list_objects_v2 response the existence checker looks at: Contents
keys and CommonPrefixes (absent dictionary keys modelled as empty lists). -/
structure CheckResponse where
  contents : List (List Char)
  commonPrefixes : List (List Char)
deriving DecidableEq, Repr

/-- The MaxKeys bound of the listing request S3ChildrenCheckerWorker.run
issues: 1 for a bucket, 2 for a folder. -/
def checkerMaxKeys (node : S3Node) : Nat :=
  if node.type == ObjectType.bucket then 1 else 2

/-- The classification of S3ChildrenCheckerWorker.run: a bucket has
children if the response holds any Contents or CommonPrefixes; for a
folder, any Contents key other than the folder marker key, or any
common-prefix, counts, and a response holding exactly the folder marker
and nothing else is forced negative. -/
def childrenCheckerRun (node : S3Node) (resp : CheckResponse) : Bool :=
  if node.type == ObjectType.bucket then
    !resp.contents.isEmpty || !resp.commonPrefixes.isEmpty
  else
    let marker := node.key.getD [] ++ ['/']
    let hc₀ := resp.contents.any (fun k => k != marker)
    let hc₁ := if !resp.commonPrefixes.isEmpty then true else hc₀
    if resp.contents.length == 1 && resp.commonPrefixes.isEmpty then
      match resp.contents.head? with
      | some only => if only == marker then false else hc₁
      | none => hc₁
    else hc₁

/-! ### Trace observations -/

/-- Number of loader threads started along a trace. -/
def countLoaderStarts (tr : List Step) : Nat :=
  (tr.filter (fun s => match s with
    | Step.loaderStart _ => true
    | _ => false)).length

/-- Number of emissions of a given signal along a trace. -/
def countSig (sg : Sig) (tr : List Step) : Nat :=
  (tr.filter (fun s => s == Step.sig sg)).length

/-- A trace that writes no children list at all. -/
def noChildMutations (tr : List Step) : Bool :=
  tr.all (fun s => match s with
    | Step.mutateChildren _ => false
    | _ => true)

/-! ### The no-duplicate-siblings invariant and operation sequences -/

/-- The (name, kind) pairs of the child objects of a node, resolved in a
heap. -/
def siblingKeys (heap : List (Nat × S3Node)) (n : S3Node) :
    List (List Char × ObjectType) :=
  (n.children.filterMap (lookupNode heap)).map (fun c => (c.name, c.type))

/-- No node of the heap has two children with the same (name, kind) pair. -/
def NoDupSiblings (m : S3FileTreeModel) : Prop :=
  ∀ p ∈ m.nodes, (siblingKeys m.nodes p.2).Nodup

/-- A key that is new to the model: not bound in the heap and referenced by
no children list (a freshly generated uuid in the source). -/
def FreshId (m : S3FileTreeModel) (id : Nat) : Prop :=
  lookupNode m.nodes id = none ∧ ∀ p ∈ m.nodes, id ∉ p.2.children

instance (m : S3FileTreeModel) : Decidable (NoDupSiblings m) :=
  inferInstanceAs
    (Decidable (∀ p ∈ m.nodes, (siblingKeys m.nodes p.2).Nodup))

instance (m : S3FileTreeModel) (id : Nat) : Decidable (FreshId m id) :=
  inferInstanceAs (Decidable (lookupNode m.nodes id = none ∧
    ∀ p ∈ m.nodes, id ∉ p.2.children))

/-- The tree mutations the duplicate-sibling claim ranges over: a user
insert through appendRow and a loader result applied through
_on_nodes_loaded. -/
inductive TreeOp where
  | insertChild (parentIdx : Option Nat) (newId : Nat) (node : S3Node)
  | loadBatch (parentId : Nat) (parentIdx : Option Nat)
      (batch : List (Nat × S3Node))
deriving Repr

/-- Apply one tree operation (state part only). -/
def applyTreeOp (m : S3FileTreeModel) : TreeOp → S3FileTreeModel
  | TreeOp.insertChild p id n => ((S3FileTreeModel.appendRow m p id n).1).1
  | TreeOp.loadBatch pid pidx b => (S3FileTreeModel.on_nodes_loaded m pid pidx b).1

/-- Apply a sequence of tree operations. -/
def runTreeOps (m : S3FileTreeModel) (ops : List TreeOp) : S3FileTreeModel :=
  ops.foldl applyTreeOp m

/-- The batch a loader run delivers: the created nodes of the listed
objects, keyed by their freshly generated ids. -/
def loaderBatch (ids : List Nat) (parentId : Nat) (objs : List S3Object) :
    List (Nat × S3Node) :=
  ids.zip (objs.map (fun o => create_node o parentId))

/-- All CommonPrefixes paths of a paginated response. -/
def allCommonPrefixPaths (pages : List ListingPage) : List (List Char) :=
  (pages.map (fun pg => pg.commonPrefixes)).flatten

/-- All Contents keys of a paginated response. -/
def allContentKeys (pages : List ListingPage) : List (List Char) :=
  (pages.map (fun pg => pg.contents.map (fun kv => kv.1))).flatten

/-- Well-formedness of a delimiter-based listing response for a request
path pfx (empty for a bucket listing, otherwise a key followed by a slash):
every common-prefix path extends pfx by one non-empty slash-free segment
followed by the delimiter, every key extends pfx by a slash-free remainder
(the empty remainder is the folder marker itself), and the store never
repeats a common-prefix path or a key. -/
def WFListing (pfx : List Char) (pages : List ListingPage) : Prop :=
  (pfx = [] ∨ pfx.getLast? = some '/') ∧
  (∀ p ∈ allCommonPrefixPaths pages,
     ∃ seg, seg ≠ [] ∧ '/' ∉ seg ∧ p = pfx ++ seg ++ ['/']) ∧
  (allCommonPrefixPaths pages).Nodup ∧
  (∀ k ∈ allContentKeys pages, ∃ rel, '/' ∉ rel ∧ k = pfx ++ rel) ∧
  (allContentKeys pages).Nodup

/-- An object batch as the Object Store Adapter can produce it: either a
well-formed delimiter listing of children or a bucket listing with distinct
bucket names. -/
def AdapterObjects (objs : List S3Object) : Prop :=
  (∃ bucket pfx pages, WFListing pfx pages ∧ objs = list_objects bucket pages) ∨
  (∃ resp, (resp.map (fun b => b.1)).Nodup ∧ objs = list_buckets resp)

/-- Valid runs of tree operations: inserted nodes are fresh leaf objects
(no children yet), loader batches carry adapter-produced objects under
freshly generated distinct ids, and a loader batch targets a live parent. -/
inductive GoodRun : S3FileTreeModel → List TreeOp → Prop where
  | nil (m : S3FileTreeModel) : GoodRun m []
  | insert (m : S3FileTreeModel) (p : Option Nat) (newId : Nat) (node : S3Node)
      (ops : List TreeOp)
      (hfresh : FreshId m newId) (hleaf : node.children = [])
      (hrest : GoodRun (applyTreeOp m (TreeOp.insertChild p newId node)) ops) :
      GoodRun m (TreeOp.insertChild p newId node :: ops)
  | load (m : S3FileTreeModel) (pid : Nat) (pidx : Option Nat)
      (ids : List Nat) (objs : List S3Object) (ops : List TreeOp)
      (hnd : ids.Nodup) (hfresh : ∀ id ∈ ids, FreshId m id)
      (hlen : ids.length = objs.length)
      (hobjs : AdapterObjects objs)
      (hparent : (lookupNode m.nodes pid).isSome = true)
      (hrest : GoodRun
        (applyTreeOp m (TreeOp.loadBatch pid pidx (loaderBatch ids pid objs))) ops) :
      GoodRun m (TreeOp.loadBatch pid pidx (loaderBatch ids pid objs) :: ops)

/-! ### Concrete sample states used by witnesses and counterexamples -/

/-- A sample root node that already holds one child. -/
def rootNode : S3Node :=
  { name := [], type := ObjectType.folder, children := [1], is_loaded := true }

/-- A sample unloaded folder node. -/
def folderNode : S3Node :=
  { name := ['f'], type := ObjectType.folder,
    bucket := some ['b'], key := some ['k'] }

/-- A sample file node. -/
def fileNode : S3Node :=
  { name := ['x'], type := ObjectType.file,
    bucket := some ['b'], key := some ['k', '/', 'x'] }

/-- A sample model: a root holding one unloaded folder. -/
def sampleModel : S3FileTreeModel :=
  { nodes := [(0, rootNode), (1, folderNode)] }

/-- A sample model whose existence cache holds a negative verdict for the
unloaded folder. -/
def cachedNegModel : S3FileTreeModel :=
  { nodes := [(0, rootNode), (1, folderNode)], has_children_cache := [(1, false)] }

/-- A sample model with content checking enabled and the folder registered
in the node map, ready for a probe round trip. -/
def probeModel : S3FileTreeModel :=
  { nodes := [(0, rootNode), (1, folderNode)], node_map := [1],
    check_folder_contents := true }

/-- A sample model whose unloaded folder already holds a child, with
content checking enabled. -/
def busyChildModel : S3FileTreeModel :=
  { nodes := [(0, rootNode), (1, { folderNode with children := [2] }), (2, fileNode)],
    check_folder_contents := true }

/-! ### Association list lemmas -/

theorem lookupNode_filter_ne (h : List (Nat × S3Node)) {i j : Nat}
    (hne : j ≠ i) :
    lookupNode (h.filter (fun p => p.1 != i)) j = lookupNode h j := by
  induction h with
  | nil => rfl
  | cons a t ih =>
    by_cases hai : a.1 = i
    · have haj : a.1 ≠ j := fun hh => hne (hh ▸ hai)
      simp [List.filter_cons, hai, lookupNode, haj, ih, Ne.symm hne]
    · by_cases haj : a.1 = j
      · simp [List.filter_cons, hai, lookupNode, haj, hne]
      · simp [List.filter_cons, hai, lookupNode, haj, ih]

theorem lookupNode_storeNode_self (h : List (Nat × S3Node)) (i : Nat)
    (n : S3Node) : lookupNode (storeNode h i n) i = some n := by
  simp [lookupNode, storeNode]

theorem lookupNode_storeNode_ne (h : List (Nat × S3Node)) {i j : Nat}
    (hne : j ≠ i) (n : S3Node) :
    lookupNode (storeNode h i n) j = lookupNode h j := by
  simp [lookupNode, storeNode, Ne.symm hne, lookupNode_filter_ne h hne]

theorem lookupNode_setNode_ne (h : List (Nat × S3Node)) {i j : Nat}
    (hne : j ≠ i) (n : S3Node) :
    lookupNode (setNode h i n) j = lookupNode h j := by
  induction h with
  | nil => rfl
  | cons a t ih =>
    simp only [setNode, List.map_cons] at ih ⊢
    by_cases hai : a.1 = i
    · simp [lookupNode, hai, Ne.symm hne, ih]
    · by_cases haj : a.1 = j
      · simp [lookupNode, hai, haj, hne]
      · simp [lookupNode, hai, haj, ih]

theorem lookupNode_setNode_self (h : List (Nat × S3Node)) {i : Nat}
    {x : S3Node} (hx : lookupNode h i = some x) (n : S3Node) :
    lookupNode (setNode h i n) i = some n := by
  induction h with
  | nil => simp [lookupNode] at hx
  | cons a t ih =>
    simp only [setNode, List.map_cons] at ih ⊢
    by_cases hai : a.1 = i
    · simp [lookupNode, hai]
    · simp only [lookupNode, hai, if_false] at hx
      simp [lookupNode, hai, ih hx]

/-! ### Claim C9: the existence probe issues a listing bounded to 2 entries
and classifies against the container marker. -/

/-- Claim C9: for every container node, the existence probe issues a
listing bounded to at most 2 entries, and classifies it as positive
exactly when the response holds any common-prefix, or any object key that
is not the own folder-marker key of the container (a bucket has no marker
of its own, so for a bucket any object counts). -/
theorem claim_C9_probe_classification (node : S3Node) (resp : CheckResponse)
    (h : node.type = ObjectType.bucket ∨ node.type = ObjectType.folder) :
    checkerMaxKeys node ≤ 2 ∧
    (childrenCheckerRun node resp = true ↔
      (resp.commonPrefixes ≠ [] ∨
       ∃ k ∈ resp.contents,
         node.type = ObjectType.folder → k ≠ node.key.getD [] ++ ['/'])) := by
  constructor
  · unfold checkerMaxKeys
    split <;> omega
  · rcases h with h | h
    · simp only [childrenCheckerRun, h]
      cases resp.contents with
      | nil => simp
      | cons a t =>
        cases resp.commonPrefixes <;> simp
    · simp only [childrenCheckerRun, h]
      have marker := node.key.getD [] ++ ['/']
      cases hcp : resp.commonPrefixes with
      | cons p ps =>
        cases hct : resp.contents with
        | nil => simp
        | cons a t => simp
      | nil =>
        cases hct : resp.contents with
        | nil => simp
        | cons a t =>
          cases t with
          | nil =>
            by_cases ha : a = node.key.getD [] ++ ['/'] <;>
              simp [ha, List.any_cons]
          | cons b t2 =>
            simp [List.any_cons, List.any_eq_true, bne_iff_ne, or_assoc]

/-- Claim C9, witness: the folder probe applied to a response holding the
folder marker and one real object. -/
theorem claim_C9_probe_classification_witness :
    checkerMaxKeys folderNode ≤ 2 ∧
    (childrenCheckerRun folderNode ⟨[['k', '/'], ['k', '/', 'x']], []⟩ = true ↔
      (([] : List (List Char)) ≠ [] ∨
       ∃ k ∈ [['k', '/'], ['k', '/', 'x']],
         folderNode.type = ObjectType.folder →
           k ≠ folderNode.key.getD [] ++ ['/'])) :=
  claim_C9_probe_classification folderNode
    ⟨[['k', '/'], ['k', '/', 'x']], []⟩ (Or.inr rfl)

/-! ### Claim C6: the expand affordance versus the node-level predicate. -/

/-- Claim C6 counterexample: an unloaded folder whose cached existence
verdict is negative: the model canFetchMore affordance is false even
though the node is an unloaded container, so canFetchMore is not
irrespective of the Existence Cache. -/
theorem claim_C6_counterexample :
    S3FileTreeModel.canFetchMore cachedNegModel (some 1) = false ∧
    lookupNode cachedNegModel.nodes 1 = some folderNode ∧
    folderNode.type = ObjectType.folder ∧
    folderNode.is_loaded = false := by
  refine ⟨by decide, by decide, rfl, rfl⟩

/-- Claim C6 amended: the node-level predicate can_fetch_more is true
exactly when the node is an unloaded container, irrespective of the cache;
the engine-level canFetchMore affordance equals that predicate further
gated by no probe being in flight and the cache holding no negative
verdict. -/
theorem claim_C6_amended (m : S3FileTreeModel) (i : Nat) (node : S3Node)
    (hn : lookupNode m.nodes i = some node) :
    (S3FileTreeModel.canFetchMore m (some i) = true ↔
      (node.can_fetch_more = true ∧ m.checking_nodes.contains i = false ∧
       lookupCache m.has_children_cache i ≠ some false)) ∧
    (node.can_fetch_more = true ↔
      (node.is_loaded = false ∧
       (node.type = ObjectType.bucket ∨ node.type = ObjectType.folder))) := by
  constructor
  · simp only [S3FileTreeModel.canFetchMore, hn]
    by_cases hchk : m.checking_nodes.contains i
    · simp [hchk]
      tauto
    · by_cases hcache : lookupCache m.has_children_cache i = some false
      · simp [hchk, hcache]
      · simp [hchk, hcache]
        tauto
  · simp [S3Node.can_fetch_more, Bool.and_eq_true, Bool.or_eq_true,
      Bool.not_eq_true', and_comm]

/-- Claim C6 amended, witness: the affordance computed on the sample model
for the unloaded folder. -/
theorem claim_C6_amended_witness :
    (S3FileTreeModel.canFetchMore sampleModel (some 1) = true ↔
      (folderNode.can_fetch_more = true ∧
       sampleModel.checking_nodes.contains 1 = false ∧
       lookupCache sampleModel.has_children_cache 1 ≠ some false)) ∧
    (folderNode.can_fetch_more = true ↔
      (folderNode.is_loaded = false ∧
       (folderNode.type = ObjectType.bucket ∨
        folderNode.type = ObjectType.folder))) :=
  claim_C6_amended sampleModel 1 folderNode (by decide)

/-! ### Claim C7: clearNode keeps the cached existence entry. -/

/-- Claim C7: along the real flow (hasChildren schedules the probe, the
probe answers NoChildren, clearNode is called to refresh), clearNode does
reset is_loaded and empty the children, but the cached negative existence
entry survives, so canFetchMore stays false even after the clear. -/
theorem claim_C7_cache_survives_clear :
    lookupCache
      ((S3FileTreeModel.clearNode
        ((S3FileTreeModel.on_children_checked
          ((S3FileTreeModel.hasChildren probeModel (some 1)).2) 1 false false).1)
        (some 1)).1).has_children_cache 1 = some false ∧
    (lookupNode
      ((S3FileTreeModel.clearNode
        ((S3FileTreeModel.on_children_checked
          ((S3FileTreeModel.hasChildren probeModel (some 1)).2) 1 false false).1)
        (some 1)).1).nodes 1).map S3Node.is_loaded = some false ∧
    (lookupNode
      ((S3FileTreeModel.clearNode
        ((S3FileTreeModel.on_children_checked
          ((S3FileTreeModel.hasChildren probeModel (some 1)).2) 1 false false).1)
        (some 1)).1).nodes 1).map S3Node.children = some [] ∧
    S3FileTreeModel.canFetchMore
      ((S3FileTreeModel.clearNode
        ((S3FileTreeModel.on_children_checked
          ((S3FileTreeModel.hasChildren probeModel (some 1)).2) 1 false false).1)
        (some 1)).1) (some 1) = false := by
  decide

/-! ### Claim C10: hasChildren as a state-mutating query. -/

/-- Claim C10 counterexample: an unloaded container with no cache entry
and no probe in flight whose children list is non-empty: hasChildren
returns True without scheduling any probe and without recording the node
as being checked. -/
theorem claim_C10_counterexample :
    (lookupNode busyChildModel.nodes 1).map S3Node.is_loaded = some false ∧
    (lookupNode busyChildModel.nodes 1).map (fun n => n.type) =
      some ObjectType.folder ∧
    lookupCache busyChildModel.has_children_cache 1 = none ∧
    busyChildModel.checking_nodes = [] ∧
    busyChildModel.check_folder_contents = true ∧
    S3FileTreeModel.hasChildren busyChildModel (some 1) =
      (true, busyChildModel) := by
  decide

/-- Claim C10 amended: for an unloaded container with empty children, no
cache entry and no probe in flight, with content checking enabled,
hasChildren schedules a probe, records the node as being checked, and
returns true; a repeated call while the probe is pending still returns
true without rescheduling; and whenever a node is recorded as being
checked, canFetchMore for it is false. -/
theorem claim_C10_amended (m : S3FileTreeModel) (i : Nat) (node : S3Node)
    (hn : lookupNode m.nodes i = some node)
    (hc : node.children = [])
    (hf : m.check_folder_contents = true)
    (hcont : node.type = ObjectType.bucket ∨ node.type = ObjectType.folder)
    (hl : node.is_loaded = false)
    (hcache : lookupCache m.has_children_cache i = none)
    (hchk : m.checking_nodes.contains i = false) :
    (S3FileTreeModel.hasChildren m (some i)).1 = true ∧
    (S3FileTreeModel.hasChildren m (some i)).2.checking_nodes =
      i :: m.checking_nodes ∧
    (S3FileTreeModel.hasChildren m (some i)).2.active_checkers =
      i :: m.active_checkers ∧
    S3FileTreeModel.hasChildren (S3FileTreeModel.hasChildren m (some i)).2
      (some i) = (true, (S3FileTreeModel.hasChildren m (some i)).2) ∧
    (∀ m₂ : S3FileTreeModel, m₂.checking_nodes.contains i = true →
      S3FileTreeModel.canFetchMore m₂ (some i) = false) := by
  have hcont' : (node.type == ObjectType.bucket ||
      node.type == ObjectType.folder) = true := by
    rcases hcont with h | h <;> simp [h]
  have hchk' : i ∉ m.checking_nodes := by simpa using hchk
  refine ⟨?_, ?_, ?_, ?_, ?_⟩
  · simp [S3FileTreeModel.hasChildren, hn, hc, hf, hcache, hl, hcont', hchk']
  · simp [S3FileTreeModel.hasChildren, hn, hc, hf, hcache, hl, hcont', hchk']
  · simp [S3FileTreeModel.hasChildren, hn, hc, hf, hcache, hl, hcont', hchk']
  · simp [S3FileTreeModel.hasChildren, hn, hc, hf, hcache, hl, hcont', hchk']
  · intro m₂ hmem
    have hmem' : i ∈ m₂.checking_nodes := by simpa using hmem
    cases hlook : lookupNode m₂.nodes i with
    | none => simp [S3FileTreeModel.canFetchMore, hlook]
    | some node₂ => simp [S3FileTreeModel.canFetchMore, hlook, hmem']

/-- Claim C10 amended, witness: the probe is scheduled for the unloaded
folder of the sample model with content checking enabled. -/
theorem claim_C10_amended_witness :
    (S3FileTreeModel.hasChildren probeModel (some 1)).1 = true ∧
    (S3FileTreeModel.hasChildren probeModel (some 1)).2.checking_nodes =
      1 :: probeModel.checking_nodes ∧
    (S3FileTreeModel.hasChildren probeModel (some 1)).2.active_checkers =
      1 :: probeModel.active_checkers ∧
    S3FileTreeModel.hasChildren (S3FileTreeModel.hasChildren probeModel (some 1)).2
      (some 1) = (true, (S3FileTreeModel.hasChildren probeModel (some 1)).2) ∧
    (∀ m₂ : S3FileTreeModel, m₂.checking_nodes.contains 1 = true →
      S3FileTreeModel.canFetchMore m₂ (some 1) = false) :=
  claim_C10_amended probeModel 1 folderNode (by decide) rfl rfl
    (Or.inr rfl) rfl (by decide) (by decide)

/-! ### Claim C8: insertChild duplicate handling. -/

/-- Claim C8: appendRow on a live parent with a fresh node object returns
false and leaves the children of the parent untouched, with no
notification, when a (name, kind) duplicate already exists among them;
otherwise it appends the new node at the end of the children inside a
beginInsertRows/endInsertRows bracket and returns true.  Both outcomes are
values of the total function, never an exception. -/
theorem claim_C8_insert_child (m : S3FileTreeModel) (parentIdx : Option Nat)
    (newId : Nat) (new_node : S3Node) (parent_node : S3Node)
    (hp : lookupNode m.nodes (m.keyOf parentIdx) = some parent_node)
    (hfresh : lookupNode m.nodes newId = none)
    (href : newId ∉ parent_node.children) :
    ((∃ ex ∈ S3FileTreeModel.resolveChildren m parent_node.children,
        ex.name = new_node.name ∧ ex.type = new_node.type) →
      (S3FileTreeModel.appendRow m parentIdx newId new_node).2 = false ∧
      S3FileTreeModel.childrenOf
        ((S3FileTreeModel.appendRow m parentIdx newId new_node).1).1
        (m.keyOf parentIdx) = parent_node.children ∧
      ((S3FileTreeModel.appendRow m parentIdx newId new_node).1).2 = []) ∧
    ((∀ ex ∈ S3FileTreeModel.resolveChildren m parent_node.children,
        ¬(ex.name = new_node.name ∧ ex.type = new_node.type)) →
      (S3FileTreeModel.appendRow m parentIdx newId new_node).2 = true ∧
      S3FileTreeModel.childrenOf
        ((S3FileTreeModel.appendRow m parentIdx newId new_node).1).1
        (m.keyOf parentIdx) = parent_node.children ++ [newId] ∧
      ((S3FileTreeModel.appendRow m parentIdx newId new_node).1).2 =
        [Step.sig (Sig.beginInsertRows parentIdx parent_node.children.length
            parent_node.children.length),
         Step.mutateChildren (m.keyOf parentIdx),
         Step.sig Sig.endInsertRows] ∧
      mutationsBracketed
        (((S3FileTreeModel.appendRow m parentIdx newId new_node).1).2) = true) := by
  have hpidne : m.keyOf parentIdx ≠ newId := by
    intro hh
    rw [hh, hfresh] at hp
    exact Option.noConfusion hp
  have hres : S3FileTreeModel.resolveChildren
      { m with nodes := (storeNode m.nodes newId
          { new_node with parent := some (m.keyOf parentIdx) }) }
      parent_node.children =
      S3FileTreeModel.resolveChildren m parent_node.children := by
    unfold S3FileTreeModel.resolveChildren
    apply List.filterMap_congr
    intro c hc
    have hcne : c ≠ newId := fun hh => href (hh ▸ hc)
    exact lookupNode_storeNode_ne m.nodes hcne _
  constructor
  · intro hdup
    have hany : ((S3FileTreeModel.resolveChildren
        { m with nodes := (storeNode m.nodes newId
            { new_node with parent := some (m.keyOf parentIdx) }) }
        parent_node.children).any
          (fun ex => ex.name == new_node.name && ex.type == new_node.type)) = true := by
      rw [hres]
      rcases hdup with ⟨ex, hmem, hname, htype⟩
      exact List.any_eq_true.mpr ⟨ex, hmem, by simp [hname, htype]⟩
    refine ⟨?_, ?_, ?_⟩
    · simp only [S3FileTreeModel.appendRow, hp, hany, if_true]
    · simp only [S3FileTreeModel.appendRow, hp, hany, if_true,
        S3FileTreeModel.childrenOf]
      rw [lookupNode_storeNode_ne m.nodes hpidne, hp]
    · simp only [S3FileTreeModel.appendRow, hp, hany, if_true]
  · intro hnodup
    have hany : ((S3FileTreeModel.resolveChildren
        { m with nodes := (storeNode m.nodes newId
            { new_node with parent := some (m.keyOf parentIdx) }) }
        parent_node.children).any
          (fun ex => ex.name == new_node.name && ex.type == new_node.type)) = false := by
      rw [hres]
      apply List.any_eq_false.mpr
      intro ex hmem
      have := hnodup ex hmem
      simp only [Bool.and_eq_true, beq_iff_eq]
      tauto
    have hstored : lookupNode (storeNode m.nodes newId
        { new_node with parent := some (m.keyOf parentIdx) })
        (m.keyOf parentIdx) = some parent_node := by
      rw [lookupNode_storeNode_ne m.nodes hpidne, hp]
    refine ⟨?_, ?_, ?_, ?_⟩
    · simp only [S3FileTreeModel.appendRow, hp, hany, Bool.false_eq_true,
        if_false]
    · simp only [S3FileTreeModel.appendRow, hp, hany, Bool.false_eq_true,
        if_false, S3FileTreeModel.childrenOf]
      rw [lookupNode_setNode_self _ hstored]
    · simp only [S3FileTreeModel.appendRow, hp, hany, Bool.false_eq_true,
        if_false]
    · simp only [S3FileTreeModel.appendRow, hp, hany, Bool.false_eq_true,
        if_false]
      rfl

/-- Claim C8, witness: appending a fresh file node under the childless
folder of the sample model. -/
theorem claim_C8_insert_child_witness :
    ((∃ ex ∈ S3FileTreeModel.resolveChildren sampleModel folderNode.children,
        ex.name = fileNode.name ∧ ex.type = fileNode.type) →
      (S3FileTreeModel.appendRow sampleModel (some 1) 5 fileNode).2 = false ∧
      S3FileTreeModel.childrenOf
        ((S3FileTreeModel.appendRow sampleModel (some 1) 5 fileNode).1).1
        (sampleModel.keyOf (some 1)) = folderNode.children ∧
      ((S3FileTreeModel.appendRow sampleModel (some 1) 5 fileNode).1).2 = []) ∧
    ((∀ ex ∈ S3FileTreeModel.resolveChildren sampleModel folderNode.children,
        ¬(ex.name = fileNode.name ∧ ex.type = fileNode.type)) →
      (S3FileTreeModel.appendRow sampleModel (some 1) 5 fileNode).2 = true ∧
      S3FileTreeModel.childrenOf
        ((S3FileTreeModel.appendRow sampleModel (some 1) 5 fileNode).1).1
        (sampleModel.keyOf (some 1)) = folderNode.children ++ [5] ∧
      ((S3FileTreeModel.appendRow sampleModel (some 1) 5 fileNode).1).2 =
        [Step.sig (Sig.beginInsertRows (some 1) folderNode.children.length
            folderNode.children.length),
         Step.mutateChildren (sampleModel.keyOf (some 1)),
         Step.sig Sig.endInsertRows] ∧
      mutationsBracketed
        (((S3FileTreeModel.appendRow sampleModel (some 1) 5 fileNode).1).2) =
        true) :=
  claim_C8_insert_child sampleModel (some 1) 5 fileNode folderNode
    (by decide) (by decide) (by decide)

/-! ### Loader lifecycle lemmas -/

theorem lookupNode_foldStore_isSome (batch : List (Nat × S3Node))
    (h : List (Nat × S3Node)) {i : Nat}
    (hi : (lookupNode h i).isSome = true) :
    (lookupNode (batch.foldl (fun a p => storeNode a p.1 p.2) h) i).isSome =
      true := by
  induction batch generalizing h with
  | nil => exact hi
  | cons b t ih =>
    apply ih
    by_cases hb : i = b.1
    · rw [hb, lookupNode_storeNode_self]
      rfl
    · rw [lookupNode_storeNode_ne h hb]
      exact hi

theorem fetchMore_start_none (m : S3FileTreeModel) (i : Nat) (node : S3Node)
    (hn : lookupNode m.nodes i = some node)
    (hchk : m.checking_nodes.contains i = false)
    (hcache : lookupCache m.has_children_cache i ≠ some false)
    (hcfm : node.can_fetch_more = true)
    (hsvc : m.has_service = true)
    (hw : m.current_worker = none) :
    S3FileTreeModel.fetchMore m (some i) =
      ({ m with current_worker := some ⟨m.next_worker, i, some i⟩,
                next_worker := m.next_worker + 1 },
       [Step.sig Sig.loadingStarted, Step.loaderStart m.next_worker]) := by
  have hcache' : (lookupCache m.has_children_cache i == some false) = false :=
    beq_eq_false_iff_ne.mpr hcache
  have hchk' : i ∉ m.checking_nodes := by simpa using hchk
  simp [S3FileTreeModel.fetchMore, S3FileTreeModel.fetch_children,
    S3FileTreeModel.cleanup_worker, hn, hchk', hcache', hcfm, hsvc, hw]

theorem fetchMore_start_some (m : S3FileTreeModel) (i : Nat) (node : S3Node)
    (w : LoaderWorker)
    (hn : lookupNode m.nodes i = some node)
    (hchk : m.checking_nodes.contains i = false)
    (hcache : lookupCache m.has_children_cache i ≠ some false)
    (hcfm : node.can_fetch_more = true)
    (hsvc : m.has_service = true)
    (hw : m.current_worker = some w) :
    S3FileTreeModel.fetchMore m (some i) =
      ({ m with current_worker := some ⟨m.next_worker, i, some i⟩,
                next_worker := m.next_worker + 1 },
       [Step.sig Sig.loadingStarted, Step.loaderCancel w.gen,
        Step.loaderStart m.next_worker]) := by
  have hcache' : (lookupCache m.has_children_cache i == some false) = false :=
    beq_eq_false_iff_ne.mpr hcache
  have hchk' : i ∉ m.checking_nodes := by simpa using hchk
  simp [S3FileTreeModel.fetchMore, S3FileTreeModel.fetch_children,
    S3FileTreeModel.cleanup_worker, hn, hchk', hcache', hcfm, hsvc, hw]

theorem deliver_finished_stale (m : S3FileTreeModel) (gen : Nat)
    (batch : List (Nat × S3Node)) (w : LoaderWorker)
    (hw : m.current_worker = some w) (hne : w.gen ≠ gen) :
    S3FileTreeModel.deliver_finished m gen batch = (m, []) := by
  simp [S3FileTreeModel.deliver_finished, hw, hne]

theorem deliver_error_stale (m : S3FileTreeModel) (gen : Nat) (msg : String)
    (w : LoaderWorker) (hw : m.current_worker = some w) (hne : w.gen ≠ gen) :
    S3FileTreeModel.deliver_error m gen msg = (m, []) := by
  simp [S3FileTreeModel.deliver_error, hw, hne]

theorem on_nodes_loaded_children (m : S3FileTreeModel) (pid : Nat)
    (pidx : Option Nat) (batch : List (Nat × S3Node))
    (hp : (lookupNode m.nodes pid).isSome = true) :
    S3FileTreeModel.childrenOf
      (S3FileTreeModel.on_nodes_loaded m pid pidx batch).1 pid =
      batch.map (fun p => p.1) ∧
    (S3FileTreeModel.on_nodes_loaded m pid pidx batch).2 =
      [Step.sig (Sig.beginInsertRows pidx 0 ((batch.length : Int) - 1)),
       Step.mutateChildren pid, Step.sig Sig.endInsertRows,
       Step.sig Sig.loadingFinished] ∧
    (S3FileTreeModel.on_nodes_loaded m pid pidx batch).1.current_worker =
      m.current_worker := by
  have h₁ := lookupNode_foldStore_isSome batch m.nodes hp
  obtain ⟨pn, hpn⟩ := Option.isSome_iff_exists.mp h₁
  refine ⟨?_, ?_, ?_⟩ <;>
    simp [S3FileTreeModel.on_nodes_loaded, hpn, S3FileTreeModel.childrenOf,
      lookupNode_setNode_self _ hpn]

/-! ### Claim C1: bracketing of structural mutations. -/

/-- Claim C1 counterexample: clearNode empties the children of a live node
while emitting no begin or end notification at all, so not every mutation
of a children sequence is bracketed. -/
theorem claim_C1_counterexample :
    (S3FileTreeModel.clearNode sampleModel (some 1)).2 =
      [Step.mutateChildren 1] ∧
    mutationsBracketed [Step.mutateChildren 1] = false := by
  decide

/-- Claim C1 amended: child-batch insertion, row removal and user inserts
write children lists strictly inside a matching begin/end bracket; the
bucket reload emits beginResetModel strictly before clearing the root
children but never emits the matching endResetModel on the non-throwing
path; and clearNode writes a children list with no bracket at all. -/
theorem claim_C1_amended :
    (∀ (m : S3FileTreeModel) (pid : Nat) (pidx : Option Nat)
        (batch : List (Nat × S3Node)),
      mutationsBracketed
        ((S3FileTreeModel.on_nodes_loaded m pid pidx batch).2) = true) ∧
    (∀ (m : S3FileTreeModel) (pidx : Option Nat) (row : Nat),
      mutationsBracketed (((S3FileTreeModel.removeRow m pidx row).1).2) =
        true) ∧
    (∀ (m : S3FileTreeModel) (pidx : Option Nat) (row cnt : Nat),
      mutationsBracketed (((S3FileTreeModel.removeRows m pidx row cnt).1).2) =
        true) ∧
    (∀ (m : S3FileTreeModel) (pidx : Option Nat) (newId : Nat) (nn : S3Node),
      mutationsBracketed (((S3FileTreeModel.appendRow m pidx newId nn).1).2) =
        true) ∧
    (∀ m : S3FileTreeModel, m.has_service = true → m.current_worker = none →
      (S3FileTreeModel.load_buckets m).2 =
        [Step.sig Sig.loadingStarted, Step.sig Sig.beginResetModel,
         Step.mutateChildren m.rootId, Step.loaderStart m.next_worker] ∧
      mutationsBracketed ((S3FileTreeModel.load_buckets m).2) = false) ∧
    (∀ (m : S3FileTreeModel) (i : Nat) (node : S3Node),
      lookupNode m.nodes i = some node →
      (S3FileTreeModel.clearNode m (some i)).2 = [Step.mutateChildren i] ∧
      mutationsBracketed ((S3FileTreeModel.clearNode m (some i)).2) = false) := by
  refine ⟨?_, ?_, ?_, ?_, ?_, ?_⟩
  · intro m pid pidx batch
    cases h : lookupNode (batch.foldl (fun h p => storeNode h p.1 p.2) m.nodes)
        pid <;>
      simp [S3FileTreeModel.on_nodes_loaded, h, mutationsBracketed,
        bracketCheck, sigBegin, sigEnd]
  · intro m pidx row
    cases h : lookupNode m.nodes (m.keyOf pidx) with
    | none =>
      simp [S3FileTreeModel.removeRow, h, mutationsBracketed, bracketCheck,
        sigBegin, sigEnd]
    | some parent_node =>
      by_cases hrow : row < parent_node.children.length <;>
        simp [S3FileTreeModel.removeRow, h, hrow, mutationsBracketed,
          bracketCheck, sigBegin, sigEnd]
  · intro m pidx row cnt
    cases h : lookupNode m.nodes (m.keyOf pidx) <;>
      simp [S3FileTreeModel.removeRows, h, mutationsBracketed, bracketCheck,
        sigBegin, sigEnd]
  · intro m pidx newId nn
    cases h : lookupNode m.nodes (m.keyOf pidx) with
    | none =>
      simp [S3FileTreeModel.appendRow, h, mutationsBracketed, bracketCheck]
    | some parent_node =>
      by_cases hdup : ((S3FileTreeModel.resolveChildren
          { m with nodes := (storeNode m.nodes newId
              { nn with parent := some (m.keyOf pidx) }) }
          parent_node.children).any
            (fun ex => ex.name == nn.name && ex.type == nn.type)) = true <;>
        simp [S3FileTreeModel.appendRow, h, hdup, mutationsBracketed,
          bracketCheck, sigBegin, sigEnd]
  · intro m hsvc hw
    constructor
    · unfold S3FileTreeModel.load_buckets
      cases lookupNode m.nodes m.rootId <;>
        simp [hsvc, hw, S3FileTreeModel.cleanup_worker]
    · unfold S3FileTreeModel.load_buckets
      cases lookupNode m.nodes m.rootId <;>
        simp [hsvc, hw, S3FileTreeModel.cleanup_worker] <;> rfl
  · intro m i node hn
    simp [S3FileTreeModel.clearNode, hn]
    rfl

/-- Claim C1 amended, witness: the bracket check evaluated on the sample
model for a loader batch and for clearNode. -/
theorem claim_C1_amended_witness :
    mutationsBracketed
      ((S3FileTreeModel.on_nodes_loaded sampleModel 1 (some 1) []).2) = true ∧
    ((S3FileTreeModel.clearNode sampleModel (some 1)).2 =
        [Step.mutateChildren 1] ∧
      mutationsBracketed ((S3FileTreeModel.clearNode sampleModel (some 1)).2) =
        false) :=
  ⟨claim_C1_amended.1 sampleModel 1 (some 1) [],
   claim_C1_amended.2.2.2.2.2 sampleModel 1 folderNode (by decide)⟩

/-! ### Claim C2: double expand before first delivery. -/

/-- Claim C2 counterexample: issuing fetchMore twice on the same unloaded
folder before any delivery starts two loader runs, not exactly one: the
second call passes every guard again (there is no loading-in-flight guard)
and restarts the loader. -/
theorem claim_C2_counterexample :
    countLoaderStarts ((S3FileTreeModel.fetchMore sampleModel (some 1)).2 ++
      (S3FileTreeModel.fetchMore
        (S3FileTreeModel.fetchMore sampleModel (some 1)).1 (some 1)).2) = 2 := by
  decide

/-- Claim C2 amended: issuing the expand request twice on an unloaded
container before the first delivery starts two loader runs, the first of
which is cancelled when the second starts, so its result is discarded; the
surviving run emits the only loadingFinished; the request is a no-op when
the node is already loaded, when the cache holds a negative verdict, or
while an existence probe is in flight, but not while a load is in
flight. -/
theorem claim_C2_amended (m : S3FileTreeModel) (i : Nat) (node : S3Node)
    (bA bB : List (Nat × S3Node))
    (hn : lookupNode m.nodes i = some node)
    (hchk : m.checking_nodes.contains i = false)
    (hcache : lookupCache m.has_children_cache i ≠ some false)
    (hcfm : node.can_fetch_more = true)
    (hsvc : m.has_service = true)
    (hw : m.current_worker = none) :
    countLoaderStarts ((S3FileTreeModel.fetchMore m (some i)).2 ++
      (S3FileTreeModel.fetchMore
        (S3FileTreeModel.fetchMore m (some i)).1 (some i)).2) = 2 ∧
    Step.loaderCancel m.next_worker ∈
      (S3FileTreeModel.fetchMore
        (S3FileTreeModel.fetchMore m (some i)).1 (some i)).2 ∧
    S3FileTreeModel.deliver_finished
      (S3FileTreeModel.fetchMore
        (S3FileTreeModel.fetchMore m (some i)).1 (some i)).1
      m.next_worker bA =
      ((S3FileTreeModel.fetchMore
        (S3FileTreeModel.fetchMore m (some i)).1 (some i)).1, []) ∧
    countSig Sig.loadingFinished
      ((S3FileTreeModel.fetchMore m (some i)).2 ++
       (S3FileTreeModel.fetchMore
         (S3FileTreeModel.fetchMore m (some i)).1 (some i)).2 ++
       (S3FileTreeModel.deliver_finished
         (S3FileTreeModel.fetchMore
           (S3FileTreeModel.fetchMore m (some i)).1 (some i)).1
         (m.next_worker + 1) bB).2) = 1 ∧
    (∀ (m' : S3FileTreeModel) (j : Nat) (node' : S3Node),
      lookupNode m'.nodes j = some node' → node'.is_loaded = true →
      S3FileTreeModel.fetchMore m' (some j) = (m', [])) ∧
    (∀ (m' : S3FileTreeModel) (j : Nat),
      lookupCache m'.has_children_cache j = some false →
      S3FileTreeModel.fetchMore m' (some j) = (m', [])) ∧
    (∀ (m' : S3FileTreeModel) (j : Nat),
      m'.checking_nodes.contains j = true →
      S3FileTreeModel.fetchMore m' (some j) = (m', [])) := by
  have h1 := fetchMore_start_none m i node hn hchk hcache hcfm hsvc hw
  have h2 := fetchMore_start_some
    { m with current_worker := some ⟨m.next_worker, i, some i⟩,
             next_worker := m.next_worker + 1 } i node
    ⟨m.next_worker, i, some i⟩ hn hchk hcache hcfm hsvc rfl
  have hp2 : (lookupNode
      ({ m with current_worker := some ⟨m.next_worker + 1, i, some i⟩,
                next_worker := m.next_worker + 2 } :
        S3FileTreeModel).nodes i).isSome = true := by
    show (lookupNode m.nodes i).isSome = true
    rw [hn]
    rfl
  have hload := on_nodes_loaded_children
    { m with current_worker := some ⟨m.next_worker + 1, i, some i⟩,
             next_worker := m.next_worker + 2 } i (some i) bB hp2
  have hdel : S3FileTreeModel.deliver_finished
      { m with current_worker := some ⟨m.next_worker + 1, i, some i⟩,
               next_worker := m.next_worker + 2 } (m.next_worker + 1) bB =
      S3FileTreeModel.on_nodes_loaded
        { m with current_worker := some ⟨m.next_worker + 1, i, some i⟩,
                 next_worker := m.next_worker + 2 } i (some i) bB := by
    simp [S3FileTreeModel.deliver_finished]
  refine ⟨?_, ?_, ?_, ?_, ?_, ?_, ?_⟩
  · simp only [h1, h2]
    rfl
  · simp only [h1, h2]
    simp
  · simp only [h1, h2]
    exact deliver_finished_stale _ _ _ ⟨m.next_worker + 1, i, some i⟩ rfl
      (Nat.succ_ne_self m.next_worker)
  · simp only [h1, h2, hdel, hload.2.1]
    rfl
  · intro m' j node' hn' hl'
    have hcc : node'.can_fetch_more = false := by
      simp [S3Node.can_fetch_more, hl']
    by_cases hc1 : m'.checking_nodes.contains j <;>
      by_cases hc2 : (lookupCache m'.has_children_cache j == some false) = true <;>
        simp [S3FileTreeModel.fetchMore, hn', hc1, hc2, hcc]
  · intro m' j hc'
    cases hn' : lookupNode m'.nodes j with
    | none => simp [S3FileTreeModel.fetchMore, hn']
    | some node' =>
      by_cases hc1 : m'.checking_nodes.contains j <;>
        simp [S3FileTreeModel.fetchMore, hn', hc1, hc']
  · intro m' j hc'
    cases hn' : lookupNode m'.nodes j with
    | none => simp [S3FileTreeModel.fetchMore, hn']
    | some node' =>
      have hmem : j ∈ m'.checking_nodes := by simpa using hc'
      simp [S3FileTreeModel.fetchMore, hn', hmem]

/-- Claim C2 amended, witness: the double expand of the sample folder. -/
theorem claim_C2_amended_witness :
    countLoaderStarts ((S3FileTreeModel.fetchMore sampleModel (some 1)).2 ++
      (S3FileTreeModel.fetchMore
        (S3FileTreeModel.fetchMore sampleModel (some 1)).1 (some 1)).2) = 2 ∧
    Step.loaderCancel sampleModel.next_worker ∈
      (S3FileTreeModel.fetchMore
        (S3FileTreeModel.fetchMore sampleModel (some 1)).1 (some 1)).2 ∧
    S3FileTreeModel.deliver_finished
      (S3FileTreeModel.fetchMore
        (S3FileTreeModel.fetchMore sampleModel (some 1)).1 (some 1)).1
      sampleModel.next_worker [] =
      ((S3FileTreeModel.fetchMore
        (S3FileTreeModel.fetchMore sampleModel (some 1)).1 (some 1)).1, []) ∧
    countSig Sig.loadingFinished
      ((S3FileTreeModel.fetchMore sampleModel (some 1)).2 ++
       (S3FileTreeModel.fetchMore
         (S3FileTreeModel.fetchMore sampleModel (some 1)).1 (some 1)).2 ++
       (S3FileTreeModel.deliver_finished
         (S3FileTreeModel.fetchMore
           (S3FileTreeModel.fetchMore sampleModel (some 1)).1 (some 1)).1
         (sampleModel.next_worker + 1) []).2) = 1 ∧
    (∀ (m' : S3FileTreeModel) (j : Nat) (node' : S3Node),
      lookupNode m'.nodes j = some node' → node'.is_loaded = true →
      S3FileTreeModel.fetchMore m' (some j) = (m', [])) ∧
    (∀ (m' : S3FileTreeModel) (j : Nat),
      lookupCache m'.has_children_cache j = some false →
      S3FileTreeModel.fetchMore m' (some j) = (m', [])) ∧
    (∀ (m' : S3FileTreeModel) (j : Nat),
      m'.checking_nodes.contains j = true →
      S3FileTreeModel.fetchMore m' (some j) = (m', [])) :=
  claim_C2_amended sampleModel 1 folderNode [] [] (by decide) (by decide)
    (by decide) (by decide) rfl rfl

/-! ### Claim C3: superseded loader results are discarded. -/

/-- Claim C3: when the loader run of worker wA for some parent is
superseded by a new run started through fetchMore for node i, the stale
result of wA is discarded whether it arrives before or after the result of
the new run, and the final children of i are exactly the batch of the new
run, never a mixture. -/
theorem claim_C3_stale_result_discarded (m : S3FileTreeModel) (i : Nat)
    (node : S3Node) (wA : LoaderWorker) (bA bB : List (Nat × S3Node))
    (hw : m.current_worker = some wA)
    (hlt : wA.gen < m.next_worker)
    (hn : lookupNode m.nodes i = some node)
    (hchk : m.checking_nodes.contains i = false)
    (hcache : lookupCache m.has_children_cache i ≠ some false)
    (hcfm : node.can_fetch_more = true)
    (hsvc : m.has_service = true) :
    S3FileTreeModel.deliver_finished (S3FileTreeModel.fetchMore m (some i)).1
      wA.gen bA = ((S3FileTreeModel.fetchMore m (some i)).1, []) ∧
    S3FileTreeModel.childrenOf
      (S3FileTreeModel.deliver_finished
        (S3FileTreeModel.deliver_finished
          (S3FileTreeModel.fetchMore m (some i)).1 wA.gen bA).1
        m.next_worker bB).1 i = bB.map (fun p => p.1) ∧
    S3FileTreeModel.deliver_finished
      (S3FileTreeModel.deliver_finished
        (S3FileTreeModel.fetchMore m (some i)).1 m.next_worker bB).1
      wA.gen bA =
      ((S3FileTreeModel.deliver_finished
        (S3FileTreeModel.fetchMore m (some i)).1 m.next_worker bB).1, []) ∧
    S3FileTreeModel.childrenOf
      (S3FileTreeModel.deliver_finished
        (S3FileTreeModel.fetchMore m (some i)).1 m.next_worker bB).1 i =
      bB.map (fun p => p.1) := by
  have h2 := fetchMore_start_some m i node wA hn hchk hcache hcfm hsvc hw
  have hne : (⟨m.next_worker, i, some i⟩ : LoaderWorker).gen ≠ wA.gen :=
    Ne.symm (Nat.ne_of_lt hlt)
  have hp2 : (lookupNode
      ({ m with current_worker := some ⟨m.next_worker, i, some i⟩,
                next_worker := m.next_worker + 1 } :
        S3FileTreeModel).nodes i).isSome = true := by
    show (lookupNode m.nodes i).isSome = true
    rw [hn]
    rfl
  have hload := on_nodes_loaded_children
    { m with current_worker := some ⟨m.next_worker, i, some i⟩,
             next_worker := m.next_worker + 1 } i (some i) bB hp2
  have hA : S3FileTreeModel.deliver_finished
      { m with current_worker := some ⟨m.next_worker, i, some i⟩,
               next_worker := m.next_worker + 1 } wA.gen bA =
      ({ m with current_worker := some ⟨m.next_worker, i, some i⟩,
                next_worker := m.next_worker + 1 }, []) :=
    deliver_finished_stale _ _ _ ⟨m.next_worker, i, some i⟩ rfl hne
  have hdelB : S3FileTreeModel.deliver_finished
      { m with current_worker := some ⟨m.next_worker, i, some i⟩,
               next_worker := m.next_worker + 1 } m.next_worker bB =
      S3FileTreeModel.on_nodes_loaded
        { m with current_worker := some ⟨m.next_worker, i, some i⟩,
                 next_worker := m.next_worker + 1 } i (some i) bB := by
    simp [S3FileTreeModel.deliver_finished]
  have hcurB : (S3FileTreeModel.on_nodes_loaded
      { m with current_worker := some ⟨m.next_worker, i, some i⟩,
               next_worker := m.next_worker + 1 } i (some i) bB).1.current_worker =
      some ⟨m.next_worker, i, some i⟩ := hload.2.2
  refine ⟨?_, ?_, ?_, ?_⟩
  · simp only [h2]
    exact hA
  · simp only [h2, hA, hdelB]
    exact hload.1
  · simp only [h2, hdelB]
    exact deliver_finished_stale _ _ _ ⟨m.next_worker, i, some i⟩ hcurB hne
  · simp only [h2, hdelB]
    exact hload.1

/-- Claim C3, witness: a stale worker of generation 0 superseded by the
run started on the sample model (whose next generation is 1). -/
theorem claim_C3_stale_result_discarded_witness :
    S3FileTreeModel.deliver_finished
      (S3FileTreeModel.fetchMore
        { sampleModel with current_worker := some ⟨0, 1, some 1⟩,
                           next_worker := 1 } (some 1)).1
      (⟨0, 1, some 1⟩ : LoaderWorker).gen [(7, fileNode)] =
      ((S3FileTreeModel.fetchMore
        { sampleModel with current_worker := some ⟨0, 1, some 1⟩,
                           next_worker := 1 } (some 1)).1, []) ∧
    S3FileTreeModel.childrenOf
      (S3FileTreeModel.deliver_finished
        (S3FileTreeModel.deliver_finished
          (S3FileTreeModel.fetchMore
            { sampleModel with current_worker := some ⟨0, 1, some 1⟩,
                               next_worker := 1 } (some 1)).1
          (⟨0, 1, some 1⟩ : LoaderWorker).gen [(7, fileNode)]).1
        ({ sampleModel with current_worker := some ⟨0, 1, some 1⟩,
                            next_worker := 1 } :
          S3FileTreeModel).next_worker [(8, fileNode)]).1 1 =
      [(8, fileNode)].map (fun p => p.1) ∧
    S3FileTreeModel.deliver_finished
      (S3FileTreeModel.deliver_finished
        (S3FileTreeModel.fetchMore
          { sampleModel with current_worker := some ⟨0, 1, some 1⟩,
                             next_worker := 1 } (some 1)).1
        ({ sampleModel with current_worker := some ⟨0, 1, some 1⟩,
                            next_worker := 1 } :
          S3FileTreeModel).next_worker [(8, fileNode)]).1
      (⟨0, 1, some 1⟩ : LoaderWorker).gen [(7, fileNode)] =
      ((S3FileTreeModel.deliver_finished
        (S3FileTreeModel.fetchMore
          { sampleModel with current_worker := some ⟨0, 1, some 1⟩,
                             next_worker := 1 } (some 1)).1
        ({ sampleModel with current_worker := some ⟨0, 1, some 1⟩,
                            next_worker := 1 } :
          S3FileTreeModel).next_worker [(8, fileNode)]).1, []) ∧
    S3FileTreeModel.childrenOf
      (S3FileTreeModel.deliver_finished
        (S3FileTreeModel.fetchMore
          { sampleModel with current_worker := some ⟨0, 1, some 1⟩,
                             next_worker := 1 } (some 1)).1
        ({ sampleModel with current_worker := some ⟨0, 1, some 1⟩,
                            next_worker := 1 } :
          S3FileTreeModel).next_worker [(8, fileNode)]).1 1 =
      [(8, fileNode)].map (fun p => p.1) :=
  claim_C3_stale_result_discarded
    { sampleModel with current_worker := some ⟨0, 1, some 1⟩, next_worker := 1 }
    1 folderNode ⟨0, 1, some 1⟩ [(7, fileNode)] [(8, fileNode)]
    rfl (by decide) (by decide) (by decide) (by decide) (by decide) rfl

/-! ### Claim C5: failed loads. -/

/-- Claim C5 counterexample: the bucket reload clears the children of root
eagerly, before the background listing runs, so a failing reload leaves
the root with empty children and an unchanged loaded flag: the node graph
is not left unmutated on failure. -/
theorem claim_C5_counterexample :
    S3FileTreeModel.childrenOf sampleModel 0 = [1] ∧
    (lookupNode sampleModel.nodes 0).map S3Node.is_loaded = some true ∧
    S3FileTreeModel.childrenOf
      (S3FileTreeModel.deliver_error
        (S3FileTreeModel.load_buckets sampleModel).1 0 "boom").1 0 = [] ∧
    (lookupNode
      (S3FileTreeModel.deliver_error
        (S3FileTreeModel.load_buckets sampleModel).1 0 "boom").1.nodes 0).map
      S3Node.is_loaded = some true ∧
    countSig (Sig.errorOccurred "boom")
      (S3FileTreeModel.deliver_error
        (S3FileTreeModel.load_buckets sampleModel).1 0 "boom").2 = 1 ∧
    countSig Sig.loadingFinished
      (S3FileTreeModel.deliver_error
        (S3FileTreeModel.load_buckets sampleModel).1 0 "boom").2 = 1 := by
  decide

/-- Claim C5 amended: when the background child fetch started by fetchMore
fails, the node heap is left exactly as it was (so the loaded flag of the
node is still false) and the failure delivery emits errorOccurred and
loadingFinished, with no children write anywhere; for the top-level bucket
reload, however, the children of root are cleared before the background
run starts, so a failure leaves root with empty children and an unchanged
loaded flag, while still emitting errorOccurred and loadingFinished. -/
theorem claim_C5_amended :
    (∀ (m : S3FileTreeModel) (i : Nat) (node : S3Node) (msg : String),
      lookupNode m.nodes i = some node →
      m.checking_nodes.contains i = false →
      lookupCache m.has_children_cache i ≠ some false →
      node.can_fetch_more = true →
      m.has_service = true →
      m.current_worker = none →
      (S3FileTreeModel.deliver_error (S3FileTreeModel.fetchMore m (some i)).1
        m.next_worker msg).1.nodes = m.nodes ∧
      (S3FileTreeModel.deliver_error (S3FileTreeModel.fetchMore m (some i)).1
        m.next_worker msg).2 =
        [Step.sig (Sig.errorOccurred msg), Step.sig Sig.loadingFinished,
         Step.loaderCancel m.next_worker] ∧
      noChildMutations ((S3FileTreeModel.fetchMore m (some i)).2 ++
        (S3FileTreeModel.deliver_error (S3FileTreeModel.fetchMore m (some i)).1
          m.next_worker msg).2) = true) ∧
    (∀ (m : S3FileTreeModel) (msg : String),
      m.has_service = true → m.current_worker = none →
      S3FileTreeModel.childrenOf
        (S3FileTreeModel.deliver_error (S3FileTreeModel.load_buckets m).1
          m.next_worker msg).1 m.rootId = [] ∧
      (lookupNode (S3FileTreeModel.deliver_error
          (S3FileTreeModel.load_buckets m).1 m.next_worker msg).1.nodes
        m.rootId).map S3Node.is_loaded =
        (lookupNode m.nodes m.rootId).map S3Node.is_loaded ∧
      countSig (Sig.errorOccurred msg)
        (S3FileTreeModel.deliver_error (S3FileTreeModel.load_buckets m).1
          m.next_worker msg).2 = 1 ∧
      countSig Sig.loadingFinished
        (S3FileTreeModel.deliver_error (S3FileTreeModel.load_buckets m).1
          m.next_worker msg).2 = 1) := by
  constructor
  · intro m i node msg hn hchk hcache hcfm hsvc hw
    have h1 := fetchMore_start_none m i node hn hchk hcache hcfm hsvc hw
    have hde : S3FileTreeModel.deliver_error
        { m with current_worker := some ⟨m.next_worker, i, some i⟩,
                 next_worker := m.next_worker + 1 } m.next_worker msg =
        ({ m with current_worker := none, next_worker := m.next_worker + 1 },
         [Step.sig (Sig.errorOccurred msg), Step.sig Sig.loadingFinished,
          Step.loaderCancel m.next_worker]) := by
      simp [S3FileTreeModel.deliver_error, S3FileTreeModel.on_load_error,
        S3FileTreeModel.cleanup_worker]
    refine ⟨?_, ?_, ?_⟩ <;> simp only [h1, hde] <;> rfl
  · intro m msg hsvc hw
    cases hroot : lookupNode m.nodes m.rootId with
    | some root =>
      have hlb : S3FileTreeModel.load_buckets m =
          ({ m with
              nodes := setNode m.nodes m.rootId { root with children := [] },
              current_worker := some ⟨m.next_worker, m.rootId, none⟩,
              next_worker := m.next_worker + 1 },
           [Step.sig Sig.loadingStarted, Step.sig Sig.beginResetModel,
            Step.mutateChildren m.rootId, Step.loaderStart m.next_worker]) := by
        simp [S3FileTreeModel.load_buckets, hsvc, hw,
          S3FileTreeModel.cleanup_worker, hroot]
      have hde : S3FileTreeModel.deliver_error
          ({ m with
              nodes := setNode m.nodes m.rootId { root with children := [] },
              current_worker := some ⟨m.next_worker, m.rootId, none⟩,
              next_worker := m.next_worker + 1 } : S3FileTreeModel)
          m.next_worker msg =
          ({ m with
              nodes := setNode m.nodes m.rootId { root with children := [] },
              current_worker := none,
              next_worker := m.next_worker + 1 },
           [Step.sig (Sig.errorOccurred msg), Step.sig Sig.loadingFinished,
            Step.loaderCancel m.next_worker]) := by
        simp [S3FileTreeModel.deliver_error, S3FileTreeModel.on_load_error,
          S3FileTreeModel.cleanup_worker]
      have hset := lookupNode_setNode_self m.nodes hroot
        { root with children := [] }
      refine ⟨?_, ?_, ?_, ?_⟩ <;> simp only [hlb, hde]
      · simp [S3FileTreeModel.childrenOf, hset]
      · simp [hset, hroot]
      · simp [countSig]
      · simp [countSig]
    | none =>
      have hlb : S3FileTreeModel.load_buckets m =
          ({ m with
              current_worker := some ⟨m.next_worker, m.rootId, none⟩,
              next_worker := m.next_worker + 1 },
           [Step.sig Sig.loadingStarted, Step.sig Sig.beginResetModel,
            Step.mutateChildren m.rootId, Step.loaderStart m.next_worker]) := by
        simp [S3FileTreeModel.load_buckets, hsvc, hw,
          S3FileTreeModel.cleanup_worker, hroot]
      have hde : S3FileTreeModel.deliver_error
          ({ m with
              current_worker := some ⟨m.next_worker, m.rootId, none⟩,
              next_worker := m.next_worker + 1 } : S3FileTreeModel)
          m.next_worker msg =
          ({ m with current_worker := none,
                    next_worker := m.next_worker + 1 },
           [Step.sig (Sig.errorOccurred msg), Step.sig Sig.loadingFinished,
            Step.loaderCancel m.next_worker]) := by
        simp [S3FileTreeModel.deliver_error, S3FileTreeModel.on_load_error,
          S3FileTreeModel.cleanup_worker]
      refine ⟨?_, ?_, ?_, ?_⟩ <;> simp only [hlb, hde]
      · simp [S3FileTreeModel.childrenOf, hroot]
      · simp [hroot]
      · simp [countSig]
      · simp [countSig]

/-- Claim C5 amended, witness: the failing child fetch of the sample
folder and the failing bucket reload of the sample model. -/
theorem claim_C5_amended_witness :
    ((S3FileTreeModel.deliver_error
        (S3FileTreeModel.fetchMore sampleModel (some 1)).1
        sampleModel.next_worker "boom").1.nodes = sampleModel.nodes ∧
      (S3FileTreeModel.deliver_error
        (S3FileTreeModel.fetchMore sampleModel (some 1)).1
        sampleModel.next_worker "boom").2 =
        [Step.sig (Sig.errorOccurred "boom"), Step.sig Sig.loadingFinished,
         Step.loaderCancel sampleModel.next_worker] ∧
      noChildMutations ((S3FileTreeModel.fetchMore sampleModel (some 1)).2 ++
        (S3FileTreeModel.deliver_error
          (S3FileTreeModel.fetchMore sampleModel (some 1)).1
          sampleModel.next_worker "boom").2) = true) ∧
    (S3FileTreeModel.childrenOf
      (S3FileTreeModel.deliver_error
        (S3FileTreeModel.load_buckets sampleModel).1
        sampleModel.next_worker "boom").1 sampleModel.rootId = [] ∧
     (lookupNode (S3FileTreeModel.deliver_error
        (S3FileTreeModel.load_buckets sampleModel).1
        sampleModel.next_worker "boom").1.nodes sampleModel.rootId).map
        S3Node.is_loaded =
       (lookupNode sampleModel.nodes sampleModel.rootId).map S3Node.is_loaded ∧
     countSig (Sig.errorOccurred "boom")
       (S3FileTreeModel.deliver_error
         (S3FileTreeModel.load_buckets sampleModel).1
         sampleModel.next_worker "boom").2 = 1 ∧
     countSig Sig.loadingFinished
       (S3FileTreeModel.deliver_error
         (S3FileTreeModel.load_buckets sampleModel).1
         sampleModel.next_worker "boom").2 = 1) :=
  ⟨claim_C5_amended.1 sampleModel 1 folderNode "boom" (by decide) (by decide)
      (by decide) (by decide) rfl rfl,
   claim_C5_amended.2 sampleModel "boom" rfl rfl⟩

/-! ### String lemmas for the listing name derivation -/

theorem pySplitSlash_ne_nil (s : List Char) : pySplitSlash s ≠ [] := by
  induction s with
  | nil => simp [pySplitSlash]
  | cons c rest ih =>
    unfold pySplitSlash
    cases h : pySplitSlash rest with
    | nil => simp
    | cons hd tl => by_cases hc : c = '/' <;> simp [hc]

theorem pySplitSlash_no_slash (s : List Char) (h : '/' ∉ s) :
    pySplitSlash s = [s] := by
  induction s with
  | nil => rfl
  | cons c rest ih =>
    have hc : c ≠ '/' := fun hh => h (hh ▸ List.mem_cons_self c rest)
    have hrest : '/' ∉ rest := fun hh => h (List.mem_cons_of_mem c hh)
    unfold pySplitSlash
    rw [ih hrest]
    simp [hc]

theorem pySplitSlash_length_ge_two (s : List Char) (h : '/' ∈ s) :
    2 ≤ (pySplitSlash s).length := by
  induction s with
  | nil => simp at h
  | cons c rest ih =>
    unfold pySplitSlash
    cases hr : pySplitSlash rest with
    | nil => exact absurd hr (pySplitSlash_ne_nil rest)
    | cons hd tl =>
      by_cases hc : c = '/'
      · simp [hc]
      · have hmem : '/' ∈ rest := by
          rcases List.mem_cons.mp h with h1 | h1
          · exact absurd h1.symm hc
          · exact h1
        have := ih hmem
        rw [hr] at this
        simp at this ⊢
        simp [hc]
        omega

theorem pyLastSegment_append_slash (a b : List Char) :
    pyLastSegment (a ++ '/' :: b) = pyLastSegment b := by
  induction a with
  | nil =>
    have hstep : pySplitSlash ('/' :: b) = [] :: pySplitSlash b := by
      simp only [pySplitSlash]
      cases hb : pySplitSlash b with
      | nil => exact absurd hb (pySplitSlash_ne_nil b)
      | cons hd tl => simp
    unfold pyLastSegment
    rw [List.nil_append, hstep]
    cases hb : pySplitSlash b with
    | nil => exact absurd hb (pySplitSlash_ne_nil b)
    | cons hd tl => rw [List.getLastD_cons, List.getLastD_cons]
  | cons c a' ih =>
    cases hr : pySplitSlash (a' ++ '/' :: b) with
    | nil => exact absurd hr (pySplitSlash_ne_nil _)
    | cons hd tl =>
      have hsplit : pySplitSlash (c :: (a' ++ '/' :: b)) =
          if c = '/' then [] :: hd :: tl else (c :: hd) :: tl := by
        simp only [pySplitSlash]
        rw [hr]
        by_cases hc : c = '/' <;> simp [hc]
      have hlen : 2 ≤ (pySplitSlash (a' ++ '/' :: b)).length := by
        apply pySplitSlash_length_ge_two
        simp
      rw [hr] at hlen
      cases tl with
      | nil => simp at hlen
      | cons t0 ts =>
        unfold pyLastSegment at ih ⊢
        rw [hr] at ih
        rw [show (c :: a') ++ '/' :: b = c :: (a' ++ '/' :: b) from rfl, hsplit]
        by_cases hc : c = '/'
        · rw [if_pos hc, List.getLastD_cons]
          exact ih
        · rw [if_neg hc, List.getLastD_cons]
          rw [List.getLastD_cons] at ih
          have hne2 : t0 :: ts ≠ [] := List.cons_ne_nil t0 ts
          obtain ⟨z, hz⟩ : ∃ z, (t0 :: ts).getLast? = some z := by
            cases hgl : (t0 :: ts).getLast? with
            | none => simp [List.getLast?_eq_none_iff] at hgl
            | some z => exact ⟨z, rfl⟩
          rw [List.getLastD_eq_getLast?, hz] at ih ⊢
          exact ih

theorem pyLastSegment_no_slash (s : List Char) (h : '/' ∉ s) :
    pyLastSegment s = s := by
  unfold pyLastSegment
  rw [pySplitSlash_no_slash s h]
  rfl

theorem pyRstripSlash_good_path (pfxP seg : List Char) (hne : seg ≠ [])
    (hns : '/' ∉ seg) :
    pyRstripSlash (pfxP ++ seg ++ ['/']) = pfxP ++ seg := by
  unfold pyRstripSlash
  cases hs : seg.reverse with
  | nil => exact absurd (List.reverse_eq_nil_iff.mp hs) hne
  | cons c t =>
    have hcseg : c ∈ seg := by
      have : c ∈ seg.reverse := hs ▸ List.mem_cons_self c t
      simpa using this
    have hc : (c == '/') = false := by
      simp
      exact fun hh => hns (hh ▸ hcseg)
    rw [List.reverse_append, List.reverse_append, hs]
    simp only [List.reverse_cons, List.reverse_nil, List.nil_append,
      List.singleton_append, List.cons_append]
    rw [List.dropWhile_cons]
    simp only [beq_self_eq_true, if_true]
    rw [List.dropWhile_cons]
    simp only [hc, Bool.false_eq_true, if_false]
    have : (c :: (t ++ pfxP.reverse)) = seg.reverse ++ pfxP.reverse := by
      rw [hs]
      simp
    rw [this, List.reverse_append, List.reverse_reverse, List.reverse_reverse]

theorem pyLastSegment_good_path (pfxP seg : List Char)
    (hpfx : pfxP = [] ∨ pfxP.getLast? = some '/') (hns : '/' ∉ seg) :
    pyLastSegment (pfxP ++ seg) = seg := by
  rcases hpfx with h | h
  · rw [h, List.nil_append]
    exact pyLastSegment_no_slash seg hns
  · have hP : pfxP.dropLast ++ ['/'] = pfxP := List.dropLast_append_getLast? '/' h
    calc pyLastSegment (pfxP ++ seg)
        = pyLastSegment ((pfxP.dropLast ++ ['/']) ++ seg) := by rw [hP]
      _ = pyLastSegment (pfxP.dropLast ++ '/' :: seg) := by
          rw [List.append_assoc, List.singleton_append]
      _ = pyLastSegment seg := pyLastSegment_append_slash _ _
      _ = seg := pyLastSegment_no_slash seg hns

/-! ### Generic list helpers for the adapter lemma -/

theorem nodup_filterMap_on {α β : Type} {l : List α} {f : α → Option β}
    (hl : l.Nodup)
    (hinj : ∀ a ∈ l, ∀ a₂ ∈ l, ∀ b, f a = some b → f a₂ = some b → a = a₂) :
    (l.filterMap f).Nodup := by
  induction l with
  | nil => simp
  | cons a t ih =>
    have hat := List.nodup_cons.mp hl
    have hinj' : ∀ x ∈ t, ∀ x₂ ∈ t, ∀ b, f x = some b → f x₂ = some b →
        x = x₂ := fun x hx x₂ hx₂ b h1 h2 =>
      hinj x (List.mem_cons_of_mem a hx) x₂ (List.mem_cons_of_mem a hx₂) b h1 h2
    rw [List.filterMap_cons]
    cases hfa : f a with
    | none => exact ih hat.2 hinj'
    | some b =>
      refine List.nodup_cons.mpr ⟨?_, ih hat.2 hinj'⟩
      intro hbmem
      obtain ⟨a₂, ha₂, hfa₂⟩ := List.mem_filterMap.mp hbmem
      have heq : a = a₂ :=
        hinj a (List.mem_cons_self a t) a₂ (List.mem_cons_of_mem a ha₂) b hfa hfa₂
      exact hat.1 (heq ▸ ha₂)

theorem filterMap_flatten_eq {α β : Type} (L : List (List α))
    (f : α → Option β) :
    L.flatten.filterMap f = (L.map (fun l => l.filterMap f)).flatten := by
  induction L with
  | nil => rfl
  | cons l t ih => simp [List.filterMap_append, ih]

theorem flatten_map_append_perm {α β : Type} (L : List α) (F G : α → List β) :
    (L.map (fun x => F x ++ G x)).flatten.Perm
      ((L.map F).flatten ++ (L.map G).flatten) := by
  induction L with
  | nil => simp
  | cons x t ih =>
    simp only [List.map_cons, List.flatten_cons, List.append_assoc]
    apply List.Perm.append_left (F x)
    exact (List.Perm.append_left (G x) ih).trans
      (List.perm_append_comm_assoc _ _ _)

/-! ### The adapter produces batches with pairwise-distinct (name, kind) -/

theorem list_objects_keys_nodup (bucket pfxP : List Char)
    (pages : List ListingPage) (hwf : WFListing pfxP pages) :
    ((list_objects bucket pages).map (fun o => (o.name, o.type))).Nodup := by
  obtain ⟨hpfx, hgoodp, hnodupp, hgoodk, hnodupk⟩ := hwf
  have hnameF : ∀ p ∈ allCommonPrefixPaths pages,
      (folderObjectOf bucket p).name ++ ['/'] = p.drop pfxP.length ∧
      p = pfxP ++ (folderObjectOf bucket p).name ++ ['/'] := by
    intro p hp
    obtain ⟨seg, hseg, hns, hpeq⟩ := hgoodp p hp
    have hname : (folderObjectOf bucket p).name = seg := by
      show pyLastSegment (pyRstripSlash p) = seg
      rw [hpeq, pyRstripSlash_good_path pfxP seg hseg hns]
      exact pyLastSegment_good_path pfxP seg hpfx hns
    constructor
    · rw [hname, hpeq]
      simp
    · rw [hname, hpeq]
  -- the mapped key sequence, split into the folder part and the file part
  have hmapsplit : (list_objects bucket pages).map (fun o => (o.name, o.type)) =
      (pages.map (fun pg =>
        pg.commonPrefixes.filterMap (fun p =>
          (if p.isEmpty then none else some (folderObjectOf bucket p)).map
            (fun o => (o.name, o.type))) ++
        (pg.contents.map (fun kv => kv.1)).filterMap (fun k =>
          (if k.isEmpty then none
           else if k.getLast? == some '/' then none
           else some (pyLastSegment k, ObjectType.file))))).flatten := by
    unfold list_objects
    rw [List.map_flatten, List.map_map]
    apply congrArg List.flatten
    apply List.map_congr_left
    intro pg _
    show ((pageObjects bucket pg).map (fun o => (o.name, o.type))) = _
    unfold pageObjects
    rw [List.map_append, List.map_filterMap, List.map_filterMap]
    congr 1
    rw [List.filterMap_map]
    apply List.filterMap_congr
    intro kv _
    by_cases h1 : kv.1 = []
    · simp [h1]
    · by_cases h2 : kv.1.getLast? = some '/'
      · simp [List.isEmpty_iff, h1, h2]
      · simp [List.isEmpty_iff, h1, h2, fileObjectOf]
  have hperm := flatten_map_append_perm pages
    (fun pg => pg.commonPrefixes.filterMap (fun p =>
      (if p.isEmpty then none else some (folderObjectOf bucket p)).map
        (fun o => (o.name, o.type))))
    (fun pg => (pg.contents.map (fun kv => kv.1)).filterMap (fun k =>
      (if k.isEmpty then none
       else if k.getLast? == some '/' then none
       else some (pyLastSegment k, ObjectType.file))))
  have hFeq : (pages.map (fun pg =>
      pg.commonPrefixes.filterMap (fun p =>
        (if p.isEmpty then none else some (folderObjectOf bucket p)).map
          (fun o => (o.name, o.type))))).flatten =
      (allCommonPrefixPaths pages).filterMap (fun p =>
        (if p.isEmpty then none else some (folderObjectOf bucket p)).map
          (fun o => (o.name, o.type))) := by
    unfold allCommonPrefixPaths
    rw [filterMap_flatten_eq, List.map_map]
    rfl
  have hGeq : (pages.map (fun pg =>
      (pg.contents.map (fun kv => kv.1)).filterMap (fun k =>
        (if k.isEmpty then none
         else if k.getLast? == some '/' then none
         else some (pyLastSegment k, ObjectType.file))))).flatten =
      (allContentKeys pages).filterMap (fun k =>
        (if k.isEmpty then none
         else if k.getLast? == some '/' then none
         else some (pyLastSegment k, ObjectType.file))) := by
    unfold allContentKeys
    rw [filterMap_flatten_eq, List.map_map]
    rfl
  have hnodF : ((allCommonPrefixPaths pages).filterMap (fun p =>
      (if p.isEmpty then none else some (folderObjectOf bucket p)).map
        (fun o => (o.name, o.type)))).Nodup := by
    apply nodup_filterMap_on hnodupp
    intro p hp p₂ hp₂ b hb hb₂
    by_cases h1 : p.isEmpty
    · simp [h1] at hb
    by_cases h2 : p₂.isEmpty
    · simp [h2] at hb₂
    simp [h1, h2] at hb hb₂
    have e1 := (hnameF p hp).2
    have e2 := (hnameF p₂ hp₂).2
    rw [e1, e2]
    have : (folderObjectOf bucket p).name = (folderObjectOf bucket p₂).name := by
      rw [← hb₂] at hb
      exact congrArg Prod.fst hb
    rw [this]
  have hnodG : ((allContentKeys pages).filterMap (fun k =>
      (if k.isEmpty then none
       else if k.getLast? == some '/' then none
       else some (pyLastSegment k, ObjectType.file)))).Nodup := by
    apply nodup_filterMap_on hnodupk
    intro k hk k₂ hk₂ b hb hb₂
    by_cases h1 : k.isEmpty
    · simp [h1] at hb
    by_cases h2 : k.getLast? == some '/'
    · simp [h1, h2] at hb
    by_cases h3 : k₂.isEmpty
    · simp [h3] at hb₂
    by_cases h4 : k₂.getLast? == some '/'
    · simp [h3, h4] at hb₂
    simp [h1, h2, h3, h4] at hb hb₂
    obtain ⟨rel, hrel, hkeq⟩ := hgoodk k hk
    obtain ⟨rel₂, hrel₂, hkeq₂⟩ := hgoodk k₂ hk₂
    have hn1 : pyLastSegment k = rel := by
      rw [hkeq]
      exact pyLastSegment_good_path pfxP rel hpfx hrel
    have hn2 : pyLastSegment k₂ = rel₂ := by
      rw [hkeq₂]
      exact pyLastSegment_good_path pfxP rel₂ hpfx hrel₂
    have : rel = rel₂ := by
      rw [← hn1, ← hn2]
      rw [← hb₂] at hb
      exact congrArg Prod.fst hb
    rw [hkeq, hkeq₂, this]
  have hdisj : ∀ x ∈ (allCommonPrefixPaths pages).filterMap (fun p =>
      (if p.isEmpty then none else some (folderObjectOf bucket p)).map
        (fun o => (o.name, o.type))),
      x ∉ (allContentKeys pages).filterMap (fun k =>
        (if k.isEmpty then none
         else if k.getLast? == some '/' then none
         else some (pyLastSegment k, ObjectType.file))) := by
    intro x hx hx₂
    obtain ⟨p, hp, hfp⟩ := List.mem_filterMap.mp hx
    obtain ⟨k, hk, hfk⟩ := List.mem_filterMap.mp hx₂
    by_cases h1 : p.isEmpty
    · simp [h1] at hfp
    simp [h1] at hfp
    by_cases h3 : k.isEmpty
    · simp [h3] at hfk
    by_cases h4 : k.getLast? == some '/'
    · simp [h3, h4] at hfk
    simp [h3, h4] at hfk
    have : ObjectType.folder = ObjectType.file := by
      have e1 : x.2 = ObjectType.folder := by
        rw [← hfp]
        rfl
      have e2 : x.2 = ObjectType.file := by
        rw [← hfk]
      rw [← e1, e2]
    exact ObjectType.noConfusion this
  rw [hmapsplit]
  rw [hFeq, hGeq] at hperm
  exact (List.Perm.symm hperm).nodup (List.Nodup.append hnodF hnodG hdisj)

/-! ### Heap membership lemmas -/

theorem lookupNode_mem (h : List (Nat × S3Node)) {i : Nat} {v : S3Node}
    (hl : lookupNode h i = some v) : (i, v) ∈ h := by
  induction h with
  | nil => simp [lookupNode] at hl
  | cons a t ih =>
    by_cases hai : a.1 = i
    · simp only [lookupNode, hai, if_pos] at hl
      cases hl
      subst hai
      exact List.mem_cons_self a t
    · simp only [lookupNode, hai, if_false] at hl
      exact List.mem_cons_of_mem a (ih hl)

theorem mem_storeNode {h : List (Nat × S3Node)} {i : Nat} {n : S3Node}
    {q : Nat × S3Node} :
    q ∈ storeNode h i n ↔ q = (i, n) ∨ (q ∈ h ∧ q.1 ≠ i) := by
  simp [storeNode, List.mem_filter, bne_iff_ne]

theorem mem_setNode {h : List (Nat × S3Node)} {i : Nat} {n : S3Node}
    {q : Nat × S3Node} (hq : q ∈ setNode h i n) :
    (q ∈ h ∧ q.1 ≠ i) ∨ q = (i, n) := by
  obtain ⟨q₀, hq₀, hfq⟩ := List.mem_map.mp hq
  by_cases hqi : q₀.1 = i
  · right
    rw [← hfq]
    simp [hqi]
  · left
    rw [← hfq]
    simp only [hqi, if_false]
    exact ⟨hq₀, hqi⟩

theorem mem_foldStore {batch : List (Nat × S3Node)}
    {h : List (Nat × S3Node)} {q : Nat × S3Node}
    (hq : q ∈ batch.foldl (fun a p => storeNode a p.1 p.2) h) :
    q ∈ batch ∨ (q ∈ h ∧ q.1 ∉ batch.map (fun p => p.1)) := by
  induction batch generalizing h with
  | nil => exact Or.inr ⟨hq, by simp⟩
  | cons b t ih =>
    rcases ih (h := storeNode h b.1 b.2) hq with hmem | ⟨hmem, hnot⟩
    · exact Or.inl (List.mem_cons_of_mem b hmem)
    · rcases mem_storeNode.mp hmem with rfl | ⟨hmem₂, hne⟩
      · exact Or.inl (List.mem_cons_self _ _)
      · refine Or.inr ⟨hmem₂, ?_⟩
        simp only [List.map_cons, List.mem_cons]
        rintro (h1 | h1)
        · exact hne h1
        · exact hnot h1

theorem lookupNode_foldStore_not_mem (batch : List (Nat × S3Node))
    (h : List (Nat × S3Node)) {j : Nat}
    (hj : j ∉ batch.map (fun p => p.1)) :
    lookupNode (batch.foldl (fun a p => storeNode a p.1 p.2) h) j =
      lookupNode h j := by
  induction batch generalizing h with
  | nil => rfl
  | cons b t ih =>
    have hj1 : j ≠ b.1 := by
      intro hh
      exact hj (by simp [hh])
    have hj2 : j ∉ t.map (fun p => p.1) := by
      intro hh
      exact hj (by simp [hh])
    show lookupNode (t.foldl (fun a p => storeNode a p.1 p.2)
      (storeNode h b.1 b.2)) j = lookupNode h j
    rw [ih (storeNode h b.1 b.2) hj2, lookupNode_storeNode_ne h hj1]

theorem resolve_zip_foldStore (ids : List Nat) (vals : List S3Node)
    (h : List (Nat × S3Node)) (hnd : ids.Nodup)
    (hlen : ids.length = vals.length) :
    ids.filterMap
      (lookupNode ((ids.zip vals).foldl (fun a p => storeNode a p.1 p.2) h)) =
      vals := by
  induction ids generalizing vals h with
  | nil =>
    cases vals with
    | nil => rfl
    | cons v vs => simp at hlen
  | cons i is ih =>
    cases vals with
    | nil => simp at hlen
    | cons v vs =>
      have hnd' := List.nodup_cons.mp hnd
      have hlen' : is.length = vs.length := by simpa using hlen
      show List.filterMap
        (lookupNode ((is.zip vs).foldl (fun a p => storeNode a p.1 p.2)
          (storeNode h i v))) (i :: is) = v :: vs
      rw [List.filterMap_cons]
      have hnotz : i ∉ (is.zip vs).map (fun p => p.1) := by
        intro hh
        obtain ⟨q, hq, hfq⟩ := List.mem_map.mp hh
        have := (List.of_mem_zip hq).1
        rw [hfq] at this
        exact hnd'.1 this
      rw [lookupNode_foldStore_not_mem _ _ hnotz, lookupNode_storeNode_self]
      rw [ih vs (storeNode h i v) hnd'.2 hlen']

/-! ### Sibling-key preservation lemmas -/

theorem siblingKeys_congr (h₁ h₂ : List (Nat × S3Node)) (n : S3Node)
    (h : ∀ c ∈ n.children,
      (lookupNode h₂ c).map (fun x => (x.name, x.type)) =
        (lookupNode h₁ c).map (fun x => (x.name, x.type))) :
    siblingKeys h₂ n = siblingKeys h₁ n := by
  unfold siblingKeys
  rw [List.map_filterMap, List.map_filterMap]
  exact List.filterMap_congr h

theorem keyLookup_setNode (h : List (Nat × S3Node)) (pid : Nat)
    (old new : S3Node) (hp : lookupNode h pid = some old)
    (hname : new.name = old.name) (htype : new.type = old.type) (c : Nat) :
    (lookupNode (setNode h pid new) c).map (fun x => (x.name, x.type)) =
      (lookupNode h c).map (fun x => (x.name, x.type)) := by
  by_cases hc : c = pid
  · rw [hc, lookupNode_setNode_self h hp new, hp]
    simp [hname, htype]
  · rw [lookupNode_setNode_ne h hc new]

/-! ### Invariant preservation for the duplicate-sibling claim -/

theorem noDup_store_fresh (m : S3FileTreeModel) (newId : Nat) (x : S3Node)
    (hfresh : FreshId m newId) (hxc : x.children = [])
    (hinv : NoDupSiblings m) :
    NoDupSiblings { m with nodes := storeNode m.nodes newId x } := by
  intro q hq
  rcases mem_storeNode.mp hq with rfl | ⟨hqm, hqne⟩
  · show (siblingKeys _ x).Nodup
    simp [siblingKeys, hxc]
  · show (siblingKeys (storeNode m.nodes newId x) q.2).Nodup
    have heq : siblingKeys (storeNode m.nodes newId x) q.2 =
        siblingKeys m.nodes q.2 := by
      apply siblingKeys_congr
      intro c hc
      have hcne : c ≠ newId := by
        intro hh
        apply hfresh.2 q hqm
        rw [← hh]
        exact hc
      rw [lookupNode_storeNode_ne m.nodes hcne]
    rw [heq]
    exact hinv q hqm

theorem noDup_insert_step (m : S3FileTreeModel) (p : Option Nat) (newId : Nat)
    (node : S3Node) (hfresh : FreshId m newId) (hleaf : node.children = [])
    (hinv : NoDupSiblings m) :
    NoDupSiblings (applyTreeOp m (TreeOp.insertChild p newId node)) := by
  unfold applyTreeOp
  cases hp : lookupNode m.nodes (m.keyOf p) with
  | none =>
    simp only [S3FileTreeModel.appendRow, hp]
    exact hinv
  | some parent_node =>
    have hm₀ := noDup_store_fresh m newId
      { node with parent := some (m.keyOf p) } hfresh hleaf hinv
    have hpidne : m.keyOf p ≠ newId := by
      intro hh
      rw [hh, hfresh.1] at hp
      exact Option.noConfusion hp
    have hp₀ : lookupNode (storeNode m.nodes newId
        { node with parent := some (m.keyOf p) }) (m.keyOf p) =
        some parent_node := by
      rw [lookupNode_storeNode_ne m.nodes hpidne, hp]
    by_cases hdup : ((S3FileTreeModel.resolveChildren
        { m with nodes := (storeNode m.nodes newId
            { node with parent := some (m.keyOf p) }) }
        parent_node.children).any
          (fun ex => ex.name == node.name && ex.type == node.type)) = true
    · simp only [S3FileTreeModel.appendRow, hp, hdup, if_true]
      exact hm₀
    · simp only [S3FileTreeModel.appendRow, hp, hdup, Bool.false_eq_true,
        if_false]
      intro q hq
      rcases mem_setNode hq with ⟨hq₀, hqne⟩ | rfl
      · show (siblingKeys (setNode (storeNode m.nodes newId
            { node with parent := some (m.keyOf p) }) (m.keyOf p)
            { parent_node with
                children := parent_node.children ++ [newId] }) q.2).Nodup
        have heq : siblingKeys (setNode (storeNode m.nodes newId
            { node with parent := some (m.keyOf p) }) (m.keyOf p)
            { parent_node with
                children := parent_node.children ++ [newId] }) q.2 =
            siblingKeys (storeNode m.nodes newId
              { node with parent := some (m.keyOf p) }) q.2 := by
          apply siblingKeys_congr
          intro c _
          exact keyLookup_setNode _ (m.keyOf p) parent_node
            { parent_node with children := parent_node.children ++ [newId] }
            hp₀ rfl rfl c
        rw [heq]
        exact hm₀ q hq₀
      · show (siblingKeys (setNode (storeNode m.nodes newId
            { node with parent := some (m.keyOf p) }) (m.keyOf p)
            { parent_node with
                children := parent_node.children ++ [newId] })
            { parent_node with
                children := parent_node.children ++ [newId] }).Nodup
        unfold siblingKeys
        show ((List.filterMap _ (parent_node.children ++ [newId])).map _).Nodup
        rw [List.filterMap_append, List.map_append]
        have hpart1 : ((parent_node.children.filterMap
            (lookupNode (setNode (storeNode m.nodes newId
              { node with parent := some (m.keyOf p) }) (m.keyOf p)
              { parent_node with
                  children := parent_node.children ++ [newId] }))).map
              (fun x => (x.name, x.type))) =
            siblingKeys (storeNode m.nodes newId
              { node with parent := some (m.keyOf p) }) parent_node := by
          unfold siblingKeys
          rw [List.map_filterMap, List.map_filterMap]
          apply List.filterMap_congr
          intro c _
          exact keyLookup_setNode _ (m.keyOf p) parent_node
            { parent_node with children := parent_node.children ++ [newId] }
            hp₀ rfl rfl c
        have hpart2 : (([newId].filterMap
            (lookupNode (setNode (storeNode m.nodes newId
              { node with parent := some (m.keyOf p) }) (m.keyOf p)
              { parent_node with
                  children := parent_node.children ++ [newId] }))).map
              (fun x => (x.name, x.type))) = [(node.name, node.type)] := by
          have hlook : lookupNode (setNode (storeNode m.nodes newId
              { node with parent := some (m.keyOf p) }) (m.keyOf p)
              { parent_node with
                  children := parent_node.children ++ [newId] }) newId =
              some { node with parent := some (m.keyOf p) } := by
            rw [lookupNode_setNode_ne _ (Ne.symm hpidne),
              lookupNode_storeNode_self]
          simp [List.filterMap_cons, hlook]
        rw [hpart1, hpart2]
        have hmem₀ : ((m.keyOf p), parent_node) ∈
            (storeNode m.nodes newId
              { node with parent := some (m.keyOf p) }) :=
          lookupNode_mem _ hp₀
        have hnodup₁ := hm₀ ((m.keyOf p), parent_node) hmem₀
        have hnotin : (node.name, node.type) ∉
            siblingKeys (storeNode m.nodes newId
              { node with parent := some (m.keyOf p) }) parent_node := by
          intro hmem
          obtain ⟨ex, hex, hkey⟩ := List.mem_map.mp hmem
          apply hdup
          apply List.any_eq_true.mpr
          refine ⟨ex, hex, ?_⟩
          have h1 : ex.name = node.name := congrArg Prod.fst hkey
          have h2 : ex.type = node.type := congrArg Prod.snd hkey
          simp [h1, h2]
        apply List.Nodup.append hnodup₁ (List.nodup_singleton _)
        intro x hx hx₂
        rw [List.mem_singleton.mp hx₂] at hx
        exact hnotin hx

theorem adapterObjects_keys_nodup (objs : List S3Object)
    (h : AdapterObjects objs) :
    (objs.map (fun o => (o.name, o.type))).Nodup := by
  rcases h with ⟨bucket, pfxP, pages, hwf, rfl⟩ | ⟨resp, hnd, rfl⟩
  · exact list_objects_keys_nodup bucket pfxP pages hwf
  · unfold list_buckets
    rw [List.map_map]
    have hcomp : ((fun o : S3Object => (o.name, o.type)) ∘
        (fun b : List Char × Option Nat =>
          ({ name := b.1, type := ObjectType.bucket, size := 0,
             last_modified := b.2 } : S3Object))) =
        ((fun nm => (nm, ObjectType.bucket)) ∘ (fun b => b.1)) := rfl
    rw [hcomp, ← List.map_map]
    apply List.Nodup.map ?_ hnd
    intro a b hab
    exact congrArg Prod.fst hab

theorem noDup_load_step (m : S3FileTreeModel) (pid : Nat) (pidx : Option Nat)
    (ids : List Nat) (objs : List S3Object)
    (hnd : ids.Nodup) (hfresh : ∀ id ∈ ids, FreshId m id)
    (hlen : ids.length = objs.length)
    (hkeys : (objs.map (fun o => (o.name, o.type))).Nodup)
    (hparent : (lookupNode m.nodes pid).isSome = true)
    (hinv : NoDupSiblings m) :
    NoDupSiblings
      (applyTreeOp m (TreeOp.loadBatch pid pidx (loaderBatch ids pid objs))) := by
  have hlen' : ids.length = (objs.map (fun o => create_node o pid)).length := by
    simpa using hlen
  obtain ⟨pn, hpn⟩ := Option.isSome_iff_exists.mp hparent
  have hpid_notin : pid ∉ ids := by
    intro hh
    have := (hfresh pid hh).1
    rw [hpn] at this
    exact Option.noConfusion this
  have hbatchkeys : (loaderBatch ids pid objs).map (fun q => q.1) = ids := by
    show ((ids.zip (objs.map (fun o => create_node o pid))).map
      (fun q => q.1)) = ids
    exact List.map_fst_zip ids _ (Nat.le_of_eq hlen')
  have hpid_notb : pid ∉ (loaderBatch ids pid objs).map (fun q => q.1) := by
    rw [hbatchkeys]
    exact hpid_notin
  have hpn₁ : lookupNode ((loaderBatch ids pid objs).foldl
      (fun h q => storeNode h q.1 q.2) m.nodes) pid = some pn := by
    rw [lookupNode_foldStore_not_mem _ _ hpid_notb, hpn]
  simp only [applyTreeOp, S3FileTreeModel.on_nodes_loaded, hpn₁]
  intro q hq
  rcases mem_setNode hq with ⟨hq₁, hqne⟩ | rfl
  · rcases mem_foldStore hq₁ with hqb | ⟨hqm, hqnotin⟩
    · have hq2 : q.2 ∈ objs.map (fun o => create_node o pid) :=
        (List.of_mem_zip hqb).2
      obtain ⟨obj, _, hcreate⟩ := List.mem_map.mp hq2
      show (siblingKeys _ q.2).Nodup
      unfold siblingKeys
      rw [← hcreate]
      show ((List.filterMap _ ((create_node obj pid).children)).map _).Nodup
      simp [create_node]
    · show (siblingKeys (setNode
          ((loaderBatch ids pid objs).foldl
            (fun h q => storeNode h q.1 q.2) m.nodes) pid
          { pn with
              children := (loaderBatch ids pid objs).map (fun q => q.1),
              is_loaded := true }) q.2).Nodup
      have heq : siblingKeys (setNode
          ((loaderBatch ids pid objs).foldl
            (fun h q => storeNode h q.1 q.2) m.nodes) pid
          { pn with
              children := (loaderBatch ids pid objs).map (fun q => q.1),
              is_loaded := true }) q.2 = siblingKeys m.nodes q.2 := by
        apply siblingKeys_congr
        intro c hc
        have hcnotids : c ∉ ids := fun hh => (hfresh c hh).2 q hqm hc
        have hcnotb : c ∉ (loaderBatch ids pid objs).map (fun q => q.1) := by
          rw [hbatchkeys]
          exact hcnotids
        rw [keyLookup_setNode _ pid pn
            { pn with
                children := (loaderBatch ids pid objs).map (fun q => q.1),
                is_loaded := true } hpn₁ rfl rfl c,
          lookupNode_foldStore_not_mem _ _ hcnotb]
      rw [heq]
      exact hinv q hqm
  · show (siblingKeys (setNode
        ((loaderBatch ids pid objs).foldl
          (fun h q => storeNode h q.1 q.2) m.nodes) pid
        { pn with
            children := (loaderBatch ids pid objs).map (fun q => q.1),
            is_loaded := true })
        { pn with
            children := (loaderBatch ids pid objs).map (fun q => q.1),
            is_loaded := true }).Nodup
    unfold siblingKeys
    rw [hbatchkeys]
    have hdropset : ids.filterMap (lookupNode (setNode
        ((loaderBatch ids pid objs).foldl
          (fun h q => storeNode h q.1 q.2) m.nodes) pid
        { pn with children := ids, is_loaded := true })) =
        ids.filterMap (lookupNode
          ((loaderBatch ids pid objs).foldl
            (fun h q => storeNode h q.1 q.2) m.nodes)) := by
      apply List.filterMap_congr
      intro c hc
      have hcne : c ≠ pid := fun hh => hpid_notin (hh ▸ hc)
      rw [lookupNode_setNode_ne _ hcne]
    rw [hdropset]
    rw [show ((loaderBatch ids pid objs).foldl
        (fun h q => storeNode h q.1 q.2) m.nodes) =
      ((ids.zip (objs.map (fun o => create_node o pid))).foldl
        (fun a q => storeNode a q.1 q.2) m.nodes) from rfl]
    rw [resolve_zip_foldStore ids _ m.nodes hnd hlen']
    rw [List.map_map]
    have hkf : ((fun x : S3Node => (x.name, x.type)) ∘
        (fun o => create_node o pid)) =
        fun o : S3Object => (o.name, o.type) := rfl
    rw [hkf]
    exact hkeys

/-! ### Claim C4: no duplicate siblings. -/

/-- Claim C4: starting from any model whose nodes have no duplicate
(name, kind) siblings, any sequence of user inserts and loader-batch
applications, with loader batches produced by the Object Store Adapter
for distinct freshly generated ids, preserves the invariant: no children
sequence ever holds two entries with the same (name, kind) pair, and in
particular a re-fetch replaces the children wholesale rather than creating
duplicates beside entries from a prior partial state. -/
theorem claim_C4_no_duplicate_siblings (m : S3FileTreeModel)
    (ops : List TreeOp) (hinv : NoDupSiblings m) (hrun : GoodRun m ops) :
    NoDupSiblings (runTreeOps m ops) := by
  revert hinv
  induction hrun with
  | nil m₁ =>
    intro hinv
    exact hinv
  | insert m₁ p newId node ops hfresh hleaf hrest ih =>
    intro hinv
    exact ih (noDup_insert_step m₁ p newId node hfresh hleaf hinv)
  | load m₁ pid pidx ids objs ops hnd hfresh hlen hobjs hparent hrest ih =>
    intro hinv
    exact ih (noDup_load_step m₁ pid pidx ids objs hnd hfresh hlen
      (adapterObjects_keys_nodup objs hobjs) hparent hinv)

/-- Claim C4, witness: loading a two-bucket listing under the root of the
sample model. -/
theorem claim_C4_no_duplicate_siblings_witness :
    NoDupSiblings (runTreeOps sampleModel
      [TreeOp.loadBatch 0 none (loaderBatch [7, 8] 0
        (list_buckets [(['a'], none), (['b'], none)]))]) :=
  claim_C4_no_duplicate_siblings sampleModel
    [TreeOp.loadBatch 0 none (loaderBatch [7, 8] 0
      (list_buckets [(['a'], none), (['b'], none)]))]
    (by decide)
    (GoodRun.load sampleModel 0 none [7, 8]
      (list_buckets [(['a'], none), (['b'], none)]) []
      (by decide) (by decide) (by decide)
      (Or.inr ⟨[(['a'], none), (['b'], none)], by decide, rfl⟩)
      (by decide) (GoodRun.nil _))

end Finch
